import Mathlib

/-!
Verification of the heidi-engine C++ core against its specification.

The development shallowly embeds the C++ sources:
  * `heidi_engine/cpp/core/journal_writer.{h,cpp}` (Event, JournalWriter)
  * `heidi_engine/cpp/core/manifest.cpp`          (SignatureUtil)
  * `heidi_engine/cpp/core/subprocess.cpp`        (Subprocess)
  * `heidi_engine/cpp/core/status_writer.cpp`     (StatusWriter)
  * `heidi_engine/cpp/core/core.cpp`              (Core state machine)

Machine integers are modelled as `Nat` with explicit reduction mod 2^32
where the C++ code relies on 32-bit overflow (SHA-256).  C++ strings are
modelled as Lean strings; hashing converts characters to their code
points, which coincides with the C++ byte view on the ASCII content the
engine produces.  Fallible C++ code (functions that `throw`) is modelled
with `Except`.
-/

/-! ### SHA-256 (the OpenSSL routines used by `compute_sha256` and `HMAC`) -/

/-- Truncate to a 32-bit word, making C++ `uint32_t` overflow explicit. -/
def w32 (n : Nat) : Nat := n % 4294967296

/-- 32-bit right rotation. -/
def rotr (k x : Nat) : Nat := w32 ((x >>> k) ||| (x <<< (32 - k)))

/-- 32-bit bitwise complement. -/
def not32 (x : Nat) : Nat := x ^^^ 4294967295

def shaCh (x y z : Nat) : Nat := (x &&& y) ^^^ (not32 x &&& z)

def shaMaj (x y z : Nat) : Nat := (x &&& y) ^^^ (x &&& z) ^^^ (y &&& z)

def bsig0 (x : Nat) : Nat := rotr 2 x ^^^ rotr 13 x ^^^ rotr 22 x

def bsig1 (x : Nat) : Nat := rotr 6 x ^^^ rotr 11 x ^^^ rotr 25 x

def ssig0 (x : Nat) : Nat := rotr 7 x ^^^ rotr 18 x ^^^ (x >>> 3)

def ssig1 (x : Nat) : Nat := rotr 17 x ^^^ rotr 19 x ^^^ (x >>> 10)

/-- The SHA-256 round constants. -/
def shaK : List Nat :=
  [1116352408, 1899447441, 3049323471, 3921009573, 961987163, 1508970993,
   2453635748, 2870763221, 3624381080, 310598401, 607225278, 1426881987,
   1925078388, 2162078206, 2614888103, 3248222580, 3835390401, 4022224774,
   264347078, 604807628, 770255983, 1249150122, 1555081692, 1996064986,
   2554220882, 2821834349, 2952996808, 3210313671, 3336571891, 3584528711,
   113926993, 338241895, 666307205, 773529912, 1294757372, 1396182291,
   1695183700, 1986661051, 2177026350, 2456956037, 2730485921, 2820302411,
   3259730800, 3345764771, 3516065817, 3600352804, 4094571909, 275423344,
   430227734, 506948616, 659060556, 883997877, 958139571, 1322822218,
   1537002063, 1747873779, 1955562222, 2024104815, 2227730452, 2361852424,
   2428436474, 2756734187, 3204031479, 3329325298]

/-- The SHA-256 initial hash value. -/
def shaH0 : List Nat :=
  [1779033703, 3144134277, 1013904242, 2773480762, 1359893119, 2600822924, 528734635, 1541459225]

/-- Big-endian 4-byte words from a byte list (the block load loop). -/
def toWords : List Nat → List Nat
  | b0 :: b1 :: b2 :: b3 :: rest => (((b0 * 256 + b1) * 256 + b2) * 256 + b3) :: toWords rest
  | _ => []

/-- One step of the message-schedule extension. -/
def nextWord (w : List Nat) : Nat :=
  w32 (ssig1 (w.getD (w.length - 2) 0) + w.getD (w.length - 7) 0 +
       ssig0 (w.getD (w.length - 15) 0) + w.getD (w.length - 16) 0)

/-- Extend the 16-word schedule by `n` further words. -/
def extendW : Nat → List Nat → List Nat
  | 0, w => w
  | n + 1, w => extendW n (w ++ [nextWord w])

/-- One compression round; the state is the 8-word working vector. -/
def shaRound (s : List Nat) (k w : Nat) : List Nat :=
  match s with
  | [a, b, c, d, e, f, g, h] =>
    let t1 := w32 (h + bsig1 e + shaCh e f g + k + w)
    let t2 := w32 (bsig0 a + shaMaj a b c)
    [w32 (t1 + t2), a, b, c, w32 (d + t1), e, f, g]
  | s => s

/-- Compress one 64-byte block into the running hash value. -/
def processBlock (h : List Nat) (block : List Nat) : List Nat :=
  let w := extendW 48 (toWords block)
  let s := (shaK.zip w).foldl (fun s kw => shaRound s kw.1 kw.2) h
  List.zipWith (fun x y => w32 (x + y)) h s

/-- Big-endian 8-byte encoding of the bit length. -/
def be64 (n : Nat) : List Nat :=
  [(n >>> 56) &&& 255, (n >>> 48) &&& 255, (n >>> 40) &&& 255, (n >>> 32) &&& 255,
   (n >>> 24) &&& 255, (n >>> 16) &&& 255, (n >>> 8) &&& 255, n &&& 255]

/-- Big-endian 4-byte encoding of a word. -/
def be32 (n : Nat) : List Nat :=
  [(n >>> 24) &&& 255, (n >>> 16) &&& 255, (n >>> 8) &&& 255, n &&& 255]

/-- SHA-256 padding: append 0x80, zeros, and the 64-bit message bit length. -/
def padMessage (m : List Nat) : List Nat :=
  m ++ 128 :: List.replicate ((119 - m.length % 64) % 64) 0 ++ be64 (m.length * 8)

/-- Split a byte list into 64-byte blocks (fuel keeps the recursion
structural; each step consumes at least one byte). -/
def chunks64Go : Nat → List Nat → List (List Nat)
  | 0, _ => []
  | _, [] => []
  | fuel + 1, b :: rest => ((b :: rest).take 64) :: chunks64Go fuel (rest.drop 63)

/-- Split a byte list into 64-byte blocks. -/
def chunks64 (l : List Nat) : List (List Nat) := chunks64Go l.length l

/-- SHA-256 digest (32 bytes) of a byte list. -/
def sha256bytes (m : List Nat) : List Nat :=
  ((chunks64 (padMessage m)).foldl processBlock shaH0).foldr (fun w acc => be32 w ++ acc) []

/-- Lowercase hex digit, as produced by `std::hex`. -/
def hexDigit (n : Nat) : Char :=
  if n < 10 then Char.ofNat (48 + n) else Char.ofNat (87 + n)

/-- Two-digit lowercase hex encoding of one byte (`setw(2) << setfill('0')`). -/
def byteToHex (b : Nat) : List Char := [hexDigit (b / 16), hexDigit (b % 16)]

/-- Hex string of a byte list. -/
def bytesToHex (bs : List Nat) : String :=
  String.mk (bs.foldr (fun b acc => byteToHex b ++ acc) [])

/-- The byte view of a string (code points; identical to the C++ bytes on
the ASCII content the engine serializes). -/
def strBytes (s : String) : List Nat := s.data.map Char.toNat

/-! ### `std::regex_replace` as used by `JournalWriter::sanitize`

`sanitize` applies six `regex_replace` passes.  Each is modelled as a
left-to-right scan that replaces every non-overlapping leftmost match,
exactly as `std::regex_replace` does.  A matcher returns the length of
the match starting at the current position, if any. -/

/-- Scan a character list, replacing each leftmost match; `fuel` keeps the
recursion structural (each step consumes at least one character). -/
def replaceAllGo (pat : List Char → Option Nat) (repl : List Char) :
    Nat → List Char → List Char
  | 0, cs => cs
  | _, [] => []
  | fuel + 1, c :: rest =>
    match pat (c :: rest) with
    | some n => repl ++ replaceAllGo pat repl fuel ((c :: rest).drop (max 1 n))
    | none => c :: replaceAllGo pat repl fuel rest

/-- Replace every non-overlapping leftmost match of `pat` by `repl`. -/
def replaceAll (pat : List Char → Option Nat) (repl : List Char) (cs : List Char) :
    List Char := replaceAllGo pat repl cs.length cs

/-- `[a-zA-Z0-9]`. -/
def isAlnumCh (c : Char) : Bool :=
  (97 ≤ c.toNat && c.toNat ≤ 122) || (65 ≤ c.toNat && c.toNat ≤ 90) ||
  (48 ≤ c.toNat && c.toNat ≤ 57)

/-- ECMAScript `\w`: `[a-zA-Z0-9_]`. -/
def isWordCh (c : Char) : Bool := isAlnumCh c || c = '_'

/-- The class `[\w\-]` of the bearer-token pattern. -/
def isWordDashCh (c : Char) : Bool := isWordCh c || c = '-'

/-- ECMAScript `\s` (ASCII portion). -/
def isSpaceCh (c : Char) : Bool :=
  c = ' ' || c = '\t' || c = '\n' || c = '\x0b' || c = '\x0c' || c = '\r'

/-- Length of the maximal leading run of characters satisfying `p`. -/
def runLen (p : Char → Bool) : List Char → Nat
  | [] => 0
  | c :: rest => if p c then runLen p rest + 1 else 0

/-- Matcher for `g[h]p_[a-zA-Z0-9]{36}` (consumes exactly 40 characters). -/
def matchGhp : List Char → Option Nat
  | c1 :: c2 :: c3 :: c4 :: rest =>
    if c1 = 'g' ∧ c2 = 'h' ∧ c3 = 'p' ∧ c4 = '_' ∧ 36 ≤ runLen isAlnumCh rest
    then some 40 else none
  | _ => none

/-- Matcher for `s[k]-[a-zA-Z0-9]{20,}` (greedy: consumes the whole run). -/
def matchSk : List Char → Option Nat
  | c1 :: c2 :: c3 :: rest =>
    if c1 = 's' ∧ c2 = 'k' ∧ c3 = '-' ∧ 20 ≤ runLen isAlnumCh rest
    then some (3 + runLen isAlnumCh rest) else none
  | _ => none

/-- Matcher for `Bearer\s+[\w\-]{20,}` (both quantifiers greedy). -/
def matchBearer : List Char → Option Nat
  | c1 :: c2 :: c3 :: c4 :: c5 :: c6 :: rest =>
    if c1 = 'B' ∧ c2 = 'e' ∧ c3 = 'a' ∧ c4 = 'r' ∧ c5 = 'e' ∧ c6 = 'r' then
      let w := runLen isSpaceCh rest
      let r := runLen isWordDashCh (rest.drop w)
      if 1 ≤ w ∧ 20 ≤ r then some (6 + w + r) else none
    else none
  | _ => none

/-- Matcher for a single-character pattern (the JSON escaping passes). -/
def matchChar (target : Char) : List Char → Option Nat
  | c :: _ => if c = target then some 1 else none
  | [] => none

/-- `JournalWriter::sanitize`: redact secret shapes, then JSON-escape, in
the order of the six `regex_replace` calls of the source. -/
def JournalWriter.sanitize (input : String) : String :=
  let safe := replaceAll matchGhp "[GITHUB_TOKEN]".data input.data
  let safe := replaceAll matchSk "[OPENAI_KEY]".data safe
  let safe := replaceAll matchBearer "[BEARER_TOKEN]".data safe
  let safe := replaceAll (matchChar '\n') ['\\', 'n'] safe
  let safe := replaceAll (matchChar '\r') ['\\', 'r'] safe
  let safe := replaceAll (matchChar '"') ['\\', '"'] safe
  String.mk safe

/-! ### `Event` and its serialization (`journal_writer.h/.cpp`)

`std::map` iterates its entries in sorted key order; the two counter maps
are modelled as association lists holding the entries in iteration
order. -/

structure Event where
  ts : String := ""
  run_id : String := ""
  round : Int := 0
  stage : String := ""
  level : String := ""
  event_type : String := ""
  message : String := ""
  counters_delta : List (String × Int) := []
  usage_delta : List (String × Int) := []
  artifact_paths : List String := []
  error : String := ""
deriving Repr, DecidableEq, Inhabited

def Event.SCHEMA_VERSION : String := "1.0"

def Event.MAX_PAYLOAD_BYTES : Nat := 1024 * 1024

/-- The `first`-flag comma joining used by the serialization loops. -/
def commaJoin (parts : List String) : String := String.intercalate "," parts

/-- `Event::to_json`: the fixed 12-field canonical serialization. -/
def Event.to_json (e : Event) (prev_hash : String) : String :=
  "\x7b\"event_version\":\"" ++ Event.SCHEMA_VERSION ++ "\"," ++
  "\"ts\":\"" ++ e.ts ++ "\"," ++
  "\"run_id\":\"" ++ e.run_id ++ "\"," ++
  "\"round\":" ++ toString e.round ++ "," ++
  "\"stage\":\"" ++ e.stage ++ "\"," ++
  "\"level\":\"" ++ e.level ++ "\"," ++
  "\"event_type\":\"" ++ e.event_type ++ "\"," ++
  "\"message\":\"" ++ e.message ++ "\"," ++
  "\"counters_delta\":\x7b" ++
    commaJoin (e.counters_delta.map (fun kv => "\"" ++ kv.1 ++ "\":" ++ toString kv.2)) ++
  "\x7d," ++
  "\"usage_delta\":\x7b" ++
    commaJoin (e.usage_delta.map (fun kv => "\"" ++ kv.1 ++ "\":" ++ toString kv.2)) ++
  "\x7d," ++
  "\"artifact_paths\":[" ++
    commaJoin (e.artifact_paths.map (fun p => "\"" ++ p ++ "\"")) ++
  "]," ++
  "\"prev_hash\":\"" ++ prev_hash ++ "\"" ++
  "\x7d"

/-! ### `validate_strict` and `JournalWriter` -/

/-- `needle` occurs at the head of `hay`. -/
def startsWithChars : List Char → List Char → Bool
  | [], _ => true
  | _ :: _, [] => false
  | a :: as, b :: bs => a = b && startsWithChars as bs

/-- `needle` occurs somewhere in `hay`. -/
def containsChars (needle : List Char) : List Char → Bool
  | [] => startsWithChars needle []
  | c :: rest => startsWithChars needle (c :: rest) || containsChars needle rest

/-- `std::string::find(needle) != npos`. -/
def strContains (hay needle : String) : Bool := containsChars needle.data hay.data

/-- The count of `,"` occurrences, advancing two characters past each hit
(the `while (find(",\"", pos))`/`pos += 2` loop). -/
def countCommaQuote : List Char → Nat
  | c1 :: c2 :: rest =>
    if c1 = ',' ∧ c2 = '"' then 1 + countCommaQuote rest else countCommaQuote (c2 :: rest)
  | _ => 0

/-- The 12 required field names, in the order the source checks them. -/
def requiredKeys : List String :=
  ["event_version", "ts", "run_id", "round", "stage", "level",
   "event_type", "message", "counters_delta", "usage_delta",
   "artifact_paths", "prev_hash"]

/-- The first required key whose `"key":` marker is absent from the line. -/
def firstMissingKey (keys : List String) (line : String) : Option String :=
  match keys with
  | [] => none
  | k :: rest =>
    if strContains line ("\"" ++ k ++ "\":") then firstMissingKey rest line else some k

/-- `JournalWriter::validate_strict`; a thrown `std::runtime_error` is the
`Except.error` carrying the exception message. -/
def JournalWriter.validate_strict (json_line : String) : Except String Unit :=
  if json_line.length > Event.MAX_PAYLOAD_BYTES then
    .error "Schema Lock: Payload size exceeds limit"
  else if strContains json_line "nan" || strContains json_line "inf" then
    .error "Schema Lock: Rejecting malformed float (NaN/Inf)"
  else
    match firstMissingKey requiredKeys json_line with
    | some k => .error ("Schema Lock: Missing required field: " ++ k)
    | none =>
      if !strContains json_line ("\"event_version\":\"" ++ Event.SCHEMA_VERSION ++ "\"") then
        .error "Schema Lock: Unsupported or missing event_version"
      else if countCommaQuote json_line.data ≠ 11 then
        .error "Schema Lock: Unknown or missing top-level fields (Expected 12 keys total)"
      else
        .ok ()

/-- `JournalWriter`: the appended journal file is the list of written
lines (each including its terminator), `last_hash` the chain head. -/
structure JournalWriter where
  journal_path : String
  last_hash : String
  file : List String := []
deriving Repr, DecidableEq

/-- `JournalWriter::compute_sha256`: hex-encoded SHA-256. -/
def JournalWriter.compute_sha256 (data : String) : String :=
  bytesToHex (sha256bytes (strBytes data))

/-- `JournalWriter::write`: sanitize the message, serialize against
`last_hash`, append the line, advance the hash chain.  (The model assumes
the `std::ofstream` append succeeds; the failure branch only throws
before writing.) -/
def JournalWriter.write (w : JournalWriter) (event : Event) : JournalWriter :=
  let json_line := Event.to_json { event with message := JournalWriter.sanitize event.message } w.last_hash
  let line_with_newline := json_line ++ "\n"
  { w with
      file := w.file ++ [line_with_newline],
      last_hash := JournalWriter.compute_sha256 line_with_newline }

/-! ### `SignatureUtil` (`manifest.cpp`); HMAC-SHA256 per RFC 2104 as
implemented by the OpenSSL `HMAC`/`EVP_sha256` the source calls. -/

def hmacSha256 (key msg : List Nat) : List Nat :=
  let k0 := if 64 < key.length then sha256bytes key else key
  let kp := k0 ++ List.replicate (64 - k0.length) 0
  sha256bytes ((kp.map (fun b => b ^^^ 92)) ++ sha256bytes ((kp.map (fun b => b ^^^ 54)) ++ msg))

/-- `SignatureUtil::hmac_sha256(data, key)`: hex-encoded HMAC-SHA256. -/
def SignatureUtil.hmac_sha256 (data key : String) : String :=
  bytesToHex (hmacSha256 (strBytes key) (strBytes data))

/-- `SignatureUtil::verify`: recompute and compare. -/
def SignatureUtil.verify (data signature key : String) : Bool :=
  SignatureUtil.hmac_sha256 data key == signature

/-! ### `Subprocess::execute` (`subprocess.cpp`)

How the operating system and the child behave for one `execute` call is
an input of the model: `SpawnResult` enumerates the outcomes the source
distinguishes.  A C++ exception is `Except.error` with its message. -/

inductive SpawnResult where
  /-- `pipe()` fails. -/
  | pipeFail
  /-- `fork()` returns -1. -/
  | forkFail
  /-- `execvp` fails in the child, which then calls `_exit(127)`. -/
  | execFail
  /-- The child runs to completion before the timeout; `exit_code` is the
  value the parent derives via `WEXITSTATUS`/`128 + WTERMSIG`. -/
  | ran (exit_code : Int) (output : String)
  /-- Timeout: the child exits within the 2 s grace window after `SIGTERM`. -/
  | hungTerm (exit_code : Int) (output : String)
  /-- Timeout: the child survives `SIGTERM` and is `SIGKILL`ed. -/
  | hungKill (output : String)
deriving Repr, DecidableEq

/-- `Subprocess::execute(args, output, timeout_seconds)`: the returned
exit code paired with the captured merged output. -/
def Subprocess.execute (args : List String) (timeout_seconds : Int)
    (world : SpawnResult) : Except String (Int × String) :=
  if args = [] then .error "args cannot be empty"
  else
    match world with
    | .pipeFail => .error "failed to create pipe"
    | .forkFail => .error "failed to fork"
    | .execFail => .ok (127, "")
    | .ran exit_code output => .ok (exit_code, output)
    | .hungTerm exit_code output =>
      .ok (exit_code, output ++ "\n[HEIDI-CORE] Process terminated after SIGTERM timeout.")
    | .hungKill output =>
      .ok (-1, output ++ "\n[HEIDI-CORE] Process hung and was forcefully SIGKILLed.")

/-! ### `StatusWriter` (`status_writer.cpp`), as a filesystem-operation trace -/

inductive FsOp where
  | writeFile (path content : String)
  | rename (src dst : String)
deriving Repr, DecidableEq

structure StatusWriter where
  status_path : String
deriving Repr, DecidableEq

/-- `StatusWriter::write`: write the temp file, then atomically rename it
over the status path. -/
def StatusWriter.write (sw : StatusWriter) (json_content : String) : List FsOp :=
  [.writeFile (sw.status_path ++ ".tmp") json_content,
   .rename (sw.status_path ++ ".tmp") sw.status_path]

/-! ### `Core` (`core.cpp`)

The model covers a `Core` on which `init()` has run (journal, status
writer, sampler and governor constructed).  External collaborators that
live outside `src/` feed the state machine through environment records:
the wall clock (`Clock::now_iso8601`), the heidi-kernel
`ResourceGovernor`/`MetricsSampler` pair (its successive `decide`
results and the computed usage deltas), `getenv`, and the operating
system's behaviour for each spawned subprocess. -/

/-- The fields of `Config` that `core.cpp` reads.  The CPU/RAM watermark
percentages only reach the throttle message text; their `double`
rendering is abstracted to `Nat`. -/
structure Config where
  run_id : String := ""
  out_dir : String := ""
  repo_root : String := ""
  samples_per_round : Int := 50
  rounds : Int := 3
  run_unit_tests : Bool := false
  mock_subprocesses : Bool := false
  max_wall_time_minutes : Nat := 60
  max_cpu_pct : Nat := 90
  max_mem_pct : Nat := 90
deriving Repr, DecidableEq, Inhabited

structure CoreState where
  current_state : String
  current_round : Int
  mode : String
  stop_requested : Bool
  config : Config
  /-- `governor_` is non-null (set by `init`; `start` null-checks it). -/
  has_governor : Bool
  journal : JournalWriter
  /-- Verification trace: the `Event` values handed to `journal_->write`. -/
  events : List Event
  status : StatusWriter
  /-- Verification trace: the filesystem operations of the status writer. -/
  fs : List FsOp
deriving Repr, DecidableEq

/-- `Core::init` (after the constructor): `IDLE`, round 0, stop clear,
journal seeded with the run id, status writer on `state.json`. -/
def Core.init (config : Config) : CoreState :=
  { current_state := "IDLE", current_round := 0, mode := "", stop_requested := false,
    config := config, has_governor := true,
    journal := { journal_path := config.out_dir ++ "/events.jsonl",
                 last_hash := config.run_id, file := [] },
    events := [],
    status := { status_path := config.out_dir ++ "/state.json" },
    fs := [] }

/-- `Core::emit_event`: build the `Event` and hand it to the journal. -/
def Core.emit_event (c : CoreState) (event_type message stage level : String)
    (usage_delta : List (String × Int)) (now : String) : CoreState :=
  let e : Event := { ts := now, run_id := c.config.run_id, round := c.current_round,
                     stage := stage, level := level, event_type := event_type,
                     message := message, usage_delta := usage_delta }
  { c with journal := c.journal.write e, events := c.events ++ [e] }

/-- The status document serialized by `Core::set_state`. -/
def statusDoc (run_id new_state : String) (round : Int) (stage : String) : String :=
  "\x7b\"run_id\":\"" ++ run_id ++ "\",\"status\":\"" ++
  (if new_state = "IDLE" then "completed" else "running") ++
  "\",\"current_round\":" ++ toString round ++
  ",\"current_stage\":\"" ++ stage ++ "\"\x7d"

/-- `Core::set_state`: record the new state and persist the status JSON. -/
def Core.set_state (c : CoreState) (new_state stage : String) : CoreState :=
  let c2 := { c with current_state := new_state }
  { c2 with fs := c2.fs ++ c2.status.write (statusDoc c2.config.run_id new_state c2.current_round stage) }

/-- One `ResourceGovernor::decide` outcome, as consumed by the guardrails
loop of `Core::run_script`.  The governor itself lives in heidi-kernel,
outside `src/`; its successive results are an input of the model. -/
inductive GovDecision where
  | startNow
  | holdCpu (retry_after_ms : Nat)
  | holdMem (retry_after_ms : Nat)
  | holdOther (retry_after_ms : Nat)
deriving Repr, DecidableEq

/-- The external inputs of one stage execution. -/
structure ScriptEnv where
  /-- `Clock::now_iso8601()`. -/
  now : String
  /-- Successive governor decisions observed by the wait loop. An empty
  (or exhausted) list means `decide` returned `START_NOW`. -/
  governor : List GovDecision
  /-- The usage-delta map computed from the sampler around the call, in
  `std::map` (sorted-key) iteration order. -/
  usage : List (String × Int)
  /-- How the spawned worker behaves. -/
  subprocess : SpawnResult
deriving Repr

/-- The guardrails wait loop of `Core::run_script` (the `while` over
sampler + governor).  `wait_ms` accumulates the slept cooldowns (the C++
tracks seconds as a `double`; the comparison against the wall-clock
budget is the same on these integral values).  Returns `false` when the
budget is exceeded (state forced to `ERROR`). -/
def Core.governorWait (c : CoreState) (stage now : String) :
    List GovDecision → Nat → CoreState × Bool
  | [], _ => (c, true)
  | .startNow :: _, _ => (c, true)
  | d :: rest, wait_ms =>
    let retry := match d with
      | .holdCpu r => r
      | .holdMem r => r
      | .holdOther r => r
      | .startNow => 0
    let reason_str := match d with
      | .holdCpu _ => "CPU spiked > " ++ toString c.config.max_cpu_pct ++ "%"
      | .holdMem _ => "RAM spiked > " ++ toString c.config.max_mem_pct ++ "%"
      | _ => "Unknown"
    let c2 := Core.emit_event c "pipeline_throttled"
      ("Delaying script execution: " ++ reason_str) stage "warn" [] now
    let wait_ms2 := wait_ms + retry
    if wait_ms2 > c2.config.max_wall_time_minutes * 60000 then
      let c3 := Core.emit_event c2 "pipeline_error"
        "Exceeded maximum global pipeline wall time limits waiting for resources" stage "error" [] now
      (Core.set_state c3 "ERROR" "error", false)
    else
      Core.governorWait c2 stage now rest wait_ms2

/-- The subprocess portion of `Core::run_script` (after the guardrails
loop): spawn the worker, journal success or failure. -/
def Core.run_script_exec (c : CoreState) (script_name stage : String)
    (env : ScriptEnv) : Bool × CoreState :=
  let args := ["python3", c.config.repo_root ++ "/scripts/" ++ script_name,
               "--round", toString c.current_round]
  match Subprocess.execute args 300 env.subprocess with
  | .error emsg =>
    let err_msg := "Subprocess exception for " ++ script_name ++ ": " ++ emsg
    let c2 := Core.emit_event c "pipeline_error" err_msg "pipeline" "error" [] env.now
    (false, Core.set_state c2 "ERROR" "error")
  | .ok (status, output) =>
    if status ≠ 0 then
      let err_msg := script_name ++ " failed with exit code " ++ toString status ++ ":\n" ++
        output.take 200
      let c2 := Core.emit_event c "pipeline_error" (JournalWriter.sanitize err_msg)
        "pipeline" "error" env.usage env.now
      (false, Core.set_state c2 "ERROR" "error")
    else
      (true, Core.emit_event c "script_success" (script_name ++ " completed successfully")
        stage "info" env.usage env.now)

/-- `Core::run_script`. -/
def Core.run_script (c : CoreState) (script_name stage : String)
    (env : ScriptEnv) : Bool × CoreState :=
  if c.mode = "full" ∧ c.current_state = "IDLE" then
    (false, Core.emit_event c "gatekeeper_violation"
      "Attempted to run script in REAL mode without start()" "execution" "critical" [] env.now)
  else if c.stop_requested then (false, c)
  else if c.config.mock_subprocesses then
    let usage := [("system_cpu_pct", (5 : Int)), ("system_mem_available_kb_delta", (1024 : Int))]
    (true, Core.emit_event c "script_success"
      (script_name ++ " completed successfully (mocked)") stage "info" usage env.now)
  else
    match Core.governorWait c stage env.now env.governor 0 with
    | (c, false) => (false, c)
    | (c, true) => Core.run_script_exec c script_name stage env

/-- How a `Core::start` call ends: it either runs to completion, returns
early, or throws (`Except`-style, with the exception message). -/
inductive StartOutcome where
  | completed
  | returned
  | threw (msg : String)
deriving Repr, DecidableEq

/-- The external inputs of one `Core::start` call. -/
structure StartEnv where
  /-- `Clock::now_iso8601()`. -/
  now : String
  /-- Behaviour of the `python3 -m heidi_engine.doctor --strict` child. -/
  doctor : SpawnResult
  /-- `getenv("HEIDI_SIGNING_KEY")`. -/
  signing_key : Option String
  /-- `getenv("HEIDI_KEYSTORE_PATH")`. -/
  keystore_path : Option String
deriving Repr

/-- The common tail of `Core::start` once the gatekeeper has passed (or
the mode is not `real`). -/
def Core.startTail (c : CoreState) (mode now : String) : CoreState × StartOutcome :=
  let c2 := { c with mode := mode, current_round := 1, stop_requested := false }
  let c3 := Core.emit_event c2 "pipeline_start" "Starting training pipeline (C++)" "pipeline" "info" [] now
  (Core.set_state c3 "COLLECTING" "initializing", .completed)

/-- `Core::start`. -/
def Core.start (c : CoreState) (mode : String) (env : StartEnv) : CoreState × StartOutcome :=
  if c.stop_requested then (c, .returned)
  else if mode = "real" then
    if ¬c.has_governor then
      let c2 := Core.emit_event c "gatekeeper_failed"
        "REAL mode refused: Resource Governor (guardrails) NOT initialized" "init" "critical" [] env.now
      let c3 := Core.set_state c2 "ERROR" "error"
      (c3, .threw "REAL mode refused: Resource Governor NOT initialized")
    else
      match Subprocess.execute ["python3", "-m", "heidi_engine.doctor", "--strict"] 30 env.doctor with
      | .error emsg => (c, .threw emsg)
      | .ok (doctor_status, doctor_output) =>
        let output_summary := "Doctor Status: " ++ toString doctor_status ++
          " (Output Hash: " ++ (JournalWriter.compute_sha256 doctor_output).take 8 ++ ")"
        if doctor_status ≠ 0 then
          let c2 := Core.emit_event c "gatekeeper_failed" ("REAL mode refused: " ++ output_summary)
            "init" "critical" [] env.now
          let c3 := Core.set_state c2 "ERROR" "error"
          (c3, .threw ("REAL mode refused: " ++ output_summary))
        else
          let c2 := Core.emit_event c "gatekeeper_passed" output_summary "init" "info" [] env.now
          if env.signing_key.isNone ∨ env.keystore_path.isNone then
            let c3 := Core.emit_event c2 "gatekeeper_failed"
              "REAL mode refused: Missing signing key or keystore path" "init" "critical" [] env.now
            let c4 := Core.set_state c3 "ERROR" "error"
            (c4, .returned)
          else
            Core.startTail c2 mode env.now
  else
    Core.startTail c mode env.now

/-- The `COLLECTING` arm of `Core::tick`. -/
def Core.tickCollecting (c : CoreState) (env : ScriptEnv) : CoreState :=
  let c2 := Core.emit_event c "round_start" ("Starting round " ++ toString c.current_round)
    "round" "info" [] env.now
  let c3 := Core.emit_event c2 "stage_start" "Starting teacher generation" "generate" "info" [] env.now
  match Core.run_script c3 "01_teacher_generate.py" "generate" env with
  | (false, c4) => c4
  | (true, c4) =>
    let c5 := Core.emit_event c4 "stage_end" "Generated samples" "generate" "info" [] env.now
    Core.set_state c5 "VALIDATING" "validate"

/-- The `VALIDATING` arm of `Core::tick`. -/
def Core.tickValidating (c : CoreState) (env : ScriptEnv) : CoreState :=
  let c2 := Core.emit_event c "stage_start" "Starting validation" "validate" "info" [] env.now
  match Core.run_script c2 "02_validate_clean.py" "validate" env with
  | (false, c3) => c3
  | (true, c3) =>
    let c4 := Core.emit_event c3 "stage_end" "Validated samples" "validate" "info" [] env.now
    if c4.config.run_unit_tests then Core.set_state c4 "TESTING" "test"
    else if c4.mode = "full" then Core.set_state c4 "FINALIZING" "train"
    else Core.set_state c4 "IDLE" "complete"

/-- The `TESTING` arm of `Core::tick`. -/
def Core.tickTesting (c : CoreState) (env : ScriptEnv) : CoreState :=
  let c2 := Core.emit_event c "stage_start" "Starting unit tests" "test" "info" [] env.now
  match Core.run_script c2 "03_unit_test_gate.py" "test" env with
  | (false, c3) => c3
  | (true, c3) =>
    let c4 := Core.emit_event c3 "stage_end" "Completed unit tests" "test" "info" [] env.now
    if c4.mode = "full" then Core.set_state c4 "FINALIZING" "train"
    else Core.set_state c4 "IDLE" "complete"

/-- The `FINALIZING` arm of `Core::tick`. -/
def Core.tickFinalizing (c : CoreState) (env : ScriptEnv) : CoreState :=
  let c2 := Core.emit_event c "stage_start" "Starting training" "train" "info" [] env.now
  match Core.run_script c2 "04_train_qlora.py" "train" env with
  | (false, c3) => c3
  | (true, c3) =>
    let c4 := Core.emit_event c3 "stage_end" "Training complete" "train" "info" [] env.now
    Core.set_state c4 "EVALUATING" "eval"

/-- The `EVALUATING` arm of `Core::tick` (eval failure is tolerated). -/
def Core.tickEvaluating (c : CoreState) (env : ScriptEnv) : CoreState :=
  let c2 := Core.emit_event c "stage_start" "Starting evaluation" "eval" "info" [] env.now
  let c3 := (Core.run_script c2 "05_eval.py" "eval" env).2
  let c4 := Core.emit_event c3 "stage_end" "Evaluation complete" "eval" "info" [] env.now
  if c4.current_round < c4.config.rounds then
    let c5 := { c4 with current_round := c4.current_round + 1 }
    Core.set_state c5 "COLLECTING" "generate"
  else
    let c5 := Core.emit_event c4 "pipeline_complete" "Training pipeline finished" "pipeline" "info" [] env.now
    Core.set_state c5 "IDLE" "complete"

/-- `Core::tick` (its C++ return value is `get_status_json()` of the
post-state; the unused `max_steps` parameter is omitted). -/
def Core.tick (c : CoreState) (env : ScriptEnv) : CoreState :=
  if c.current_state = "IDLE" ∨ c.current_state = "ERROR" ∨ c.stop_requested then c
  else if c.current_state = "COLLECTING" then Core.tickCollecting c env
  else if c.current_state = "VALIDATING" then Core.tickValidating c env
  else if c.current_state = "TESTING" then Core.tickTesting c env
  else if c.current_state = "FINALIZING" then Core.tickFinalizing c env
  else if c.current_state = "EVALUATING" then Core.tickEvaluating c env
  else c

/-- `Core::shutdown`. -/
def Core.shutdown (c : CoreState) (now : String) : CoreState :=
  let c2 := { c with stop_requested := true }
  let c3 := Core.emit_event c2 "pipeline_stop" "Stop requested" "pipeline" "info" [] now
  Core.set_state c3 "IDLE" "interrupted"

/-- `Core::action_train_now`. -/
def Core.action_train_now (c : CoreState) : CoreState :=
  if c.mode = "collect" ∧ c.current_state = "IDLE" then Core.set_state c "FINALIZING" "train"
  else c

/-- `Core::get_status_json`. -/
def Core.get_status_json (c : CoreState) : String :=
  "\x7b\"state\":\"" ++ c.current_state ++ "\",\"round\":" ++ toString c.current_round ++
  ",\"mode\":\"" ++ c.mode ++ "\",\"run_id\":\"" ++ c.config.run_id ++ "\"\x7d"

/-! ### Projection lemmas for the `Core` operations (these keep later
proofs syntactic; deep `whnf` through the composed state updates is
expensive). -/

theorem emit_event_current_state (c : CoreState) (ty m st lv : String)
    (u : List (String × Int)) (n : String) :
    (Core.emit_event c ty m st lv u n).current_state = c.current_state := by rw [Core.emit_event]

theorem emit_event_current_round (c : CoreState) (ty m st lv : String)
    (u : List (String × Int)) (n : String) :
    (Core.emit_event c ty m st lv u n).current_round = c.current_round := by rw [Core.emit_event]

theorem emit_event_mode (c : CoreState) (ty m st lv : String)
    (u : List (String × Int)) (n : String) :
    (Core.emit_event c ty m st lv u n).mode = c.mode := by rw [Core.emit_event]

theorem emit_event_stop (c : CoreState) (ty m st lv : String)
    (u : List (String × Int)) (n : String) :
    (Core.emit_event c ty m st lv u n).stop_requested = c.stop_requested := by rw [Core.emit_event]

theorem emit_event_config (c : CoreState) (ty m st lv : String)
    (u : List (String × Int)) (n : String) :
    (Core.emit_event c ty m st lv u n).config = c.config := by rw [Core.emit_event]

theorem emit_event_events (c : CoreState) (ty m st lv : String)
    (u : List (String × Int)) (n : String) :
    (Core.emit_event c ty m st lv u n).events = c.events ++
      [{ ts := n, run_id := c.config.run_id, round := c.current_round, stage := st,
         level := lv, event_type := ty, message := m, usage_delta := u }] := by
  rw [Core.emit_event]

theorem set_state_current_state (c : CoreState) (s t : String) :
    (Core.set_state c s t).current_state = s := by rw [Core.set_state]

theorem set_state_current_round (c : CoreState) (s t : String) :
    (Core.set_state c s t).current_round = c.current_round := by rw [Core.set_state]

theorem set_state_mode (c : CoreState) (s t : String) :
    (Core.set_state c s t).mode = c.mode := by rw [Core.set_state]

theorem set_state_stop (c : CoreState) (s t : String) :
    (Core.set_state c s t).stop_requested = c.stop_requested := by rw [Core.set_state]

theorem set_state_events (c : CoreState) (s t : String) :
    (Core.set_state c s t).events = c.events := by rw [Core.set_state]

theorem set_state_config (c : CoreState) (s t : String) :
    (Core.set_state c s t).config = c.config := by rw [Core.set_state]

theorem set_state_fs (c : CoreState) (s t : String) :
    (Core.set_state c s t).fs = c.fs ++
      [FsOp.writeFile (c.status.status_path ++ ".tmp")
         (statusDoc c.config.run_id s c.current_round t),
       FsOp.rename (c.status.status_path ++ ".tmp") c.status.status_path] := by
  rw [Core.set_state, StatusWriter.write]

/-! ### The hash chain of `JournalWriter::write` -/

/-- The exact bytes `write` appends for `event` when the chain head is
`prev_hash`: the serialization of the sanitized event plus terminator. -/
def writeLine (e : Event) (prev_hash : String) : String :=
  Event.to_json { e with message := JournalWriter.sanitize e.message } prev_hash ++ "\n"

/-- A sequence of `write` calls. -/
def writeAll (w : JournalWriter) (es : List Event) : JournalWriter :=
  es.foldl JournalWriter.write w

/-- The lines a run of `write`s appends starting from chain head `h`. -/
def chainLines (h : String) : List Event → List String
  | [] => []
  | e :: es => writeLine e h :: chainLines (JournalWriter.compute_sha256 (writeLine e h)) es

/-- The chain head after a run of `write`s starting from head `h`. -/
def chainLast (h : String) : List Event → String
  | [] => h
  | e :: es => chainLast (JournalWriter.compute_sha256 (writeLine e h)) es

theorem write_unfold (w : JournalWriter) (e : Event) :
    w.write e = { w with file := w.file ++ [writeLine e w.last_hash],
                         last_hash := JournalWriter.compute_sha256 (writeLine e w.last_hash) } := rfl

theorem writeAll_spec (es : List Event) : ∀ w : JournalWriter,
    (writeAll w es).file = w.file ++ chainLines w.last_hash es ∧
    (writeAll w es).last_hash = chainLast w.last_hash es := by
  induction es with
  | nil => intro w; simp [writeAll, chainLines, chainLast]
  | cons e es ih =>
    intro w
    have h := ih (w.write e)
    simp only [writeAll, List.foldl_cons] at h ⊢
    rw [h.1, h.2, write_unfold]
    simp [chainLines, chainLast]

theorem chainLines_length (es : List Event) : ∀ h, (chainLines h es).length = es.length := by
  induction es with
  | nil => intro h; rfl
  | cons e es ih => intro h; simp [chainLines, ih]

theorem chainLines_getD_zero (es : List Event) (h : String) (hne : es ≠ []) :
    (chainLines h es).getD 0 "" = writeLine (es.getD 0 default) h := by
  cases es with
  | nil => exact absurd rfl hne
  | cons e es => rfl

theorem chainLines_getD_succ (es : List Event) : ∀ (h : String) (i : Nat), i + 1 < es.length →
    (chainLines h es).getD (i + 1) "" =
      writeLine (es.getD (i + 1) default)
        (JournalWriter.compute_sha256 ((chainLines h es).getD i "")) := by
  induction es with
  | nil => intro h i hi; simp at hi
  | cons e es ih =>
    intro h i hi
    cases i with
    | zero =>
      have hne : es ≠ [] := by
        cases es with
        | nil => simp at hi
        | cons _ _ => simp
      simpa [chainLines] using chainLines_getD_zero es _ hne
    | succ j =>
      have hj : j + 1 < es.length := by simpa using hi
      simpa [chainLines] using ih _ j hj

theorem chainLast_getD (es : List Event) : ∀ h, es ≠ [] →
    chainLast h es =
      JournalWriter.compute_sha256 ((chainLines h es).getD (es.length - 1) "") := by
  induction es with
  | nil => intro h hne; exact absurd rfl hne
  | cons e es ih =>
    intro h _
    cases es with
    | nil => simp [chainLast, chainLines]
    | cons e2 es2 =>
      have h2 : (e2 :: es2 : List Event) ≠ [] := by simp
      have key := ih (JournalWriter.compute_sha256 (writeLine e h)) h2
      calc chainLast h (e :: e2 :: es2)
          = chainLast (JournalWriter.compute_sha256 (writeLine e h)) (e2 :: es2) := by
            rw [chainLast]
        _ = JournalWriter.compute_sha256
              ((chainLines (JournalWriter.compute_sha256 (writeLine e h)) (e2 :: es2)).getD
                ((e2 :: es2).length - 1) "") := key
        _ = JournalWriter.compute_sha256
              ((chainLines h (e :: e2 :: es2)).getD ((e :: e2 :: es2).length - 1) "") := by
            conv_rhs => rw [chainLines]
            simp

set_option maxRecDepth 100000

/-! ### Helper facts for `validate_strict` -/

theorem firstMissingKey_ne_none (keys : List String) (line : String) :
    ∀ k, k ∈ keys → strContains line ("\"" ++ k ++ "\":") = false →
      firstMissingKey keys line ≠ none := by
  induction keys with
  | nil => intro k hk; simp at hk
  | cons k0 rest ih =>
    intro k hk hmiss
    rcases List.mem_cons.mp hk with rfl | hmem
    · rw [firstMissingKey, hmiss]
      simp
    · rw [firstMissingKey]
      by_cases h0 : strContains line ("\"" ++ k0 ++ "\":") = true
      · rw [if_pos h0]
        exact ih k hmem hmiss
      · rw [if_neg h0]
        simp

/-! ### Events used at concrete inputs -/

/-- An event whose free-text message carries a `nan` token. -/
def eNan : Event :=
  { ts := "2026-02-20T00:00:00.000Z", run_id := "run_1", stage := "generate",
    level := "info", event_type := "stage_start", message := "score was nan" }

/-- A well-formed event with two counter entries; its canonical
serialization has twelve top-level fields but twelve `,"` sequences. -/
def eTwoCounters : Event :=
  { ts := "2026-02-20T00:00:00.000Z", run_id := "run_1", stage := "generate",
    level := "i", event_type := "stage_start", message := "ok",
    counters_delta := [("accepted", 1), ("rejected", 2)] }

/-- A plain well-formed event at severity level `info`: its serialized
line contains the substring `inf` inside `"level":"info"`. -/
def eInfo : Event :=
  { ts := "2026-02-20T00:00:00.000Z", run_id := "run_1", stage := "generate",
    level := "info", event_type := "stage_start", message := "ok" }

/-! ### Claims C1, C2, C4 on the journal -/

/-- C1: for every sequence of events appended by `JournalWriter::write`,
the journal is a valid hash chain: record `i`'s embedded `prev_hash` is
the seed for record 0 and the SHA-256 hex digest of record `i-1`'s exact
bytes otherwise, and `last_hash` is the digest of the last written
line. -/
theorem journal_write_hash_chain (path seed : String) (es : List Event) (i : Nat)
    (hi : i < es.length) :
    (writeAll { journal_path := path, last_hash := seed, file := [] } es).file.length = es.length ∧
    (writeAll { journal_path := path, last_hash := seed, file := [] } es).file.getD i "" =
      writeLine (es.getD i default)
        (if i = 0 then seed
         else JournalWriter.compute_sha256
           ((writeAll { journal_path := path, last_hash := seed, file := [] } es).file.getD (i - 1) "")) ∧
    (writeAll { journal_path := path, last_hash := seed, file := [] } es).last_hash =
      JournalWriter.compute_sha256
        ((writeAll { journal_path := path, last_hash := seed, file := [] } es).file.getD
          (es.length - 1) "") := by
  have hs := writeAll_spec es { journal_path := path, last_hash := seed, file := [] }
  have hfile : (writeAll { journal_path := path, last_hash := seed, file := [] } es).file =
      chainLines seed es := by simpa using hs.1
  have hlast : (writeAll { journal_path := path, last_hash := seed, file := [] } es).last_hash =
      chainLast seed es := by simpa using hs.2
  have hne : es ≠ [] := by
    intro h
    rw [h] at hi
    simp at hi
  refine ⟨?_, ?_, ?_⟩
  · rw [hfile, chainLines_length]
  · rw [hfile]
    cases i with
    | zero => simpa using chainLines_getD_zero es seed hne
    | succ j => simpa using chainLines_getD_succ es seed j hi
  · rw [hfile, hlast]
    exact chainLast_getD es seed hne

/-- Witness for C1 at a concrete two-event journal. -/
theorem journal_write_hash_chain_witness :
    1 < ([eNan, eTwoCounters] : List Event).length ∧
    ((writeAll { journal_path := "j", last_hash := "init_hash", file := [] } [eNan, eTwoCounters]).file.length = ([eNan, eTwoCounters] : List Event).length ∧
     (writeAll { journal_path := "j", last_hash := "init_hash", file := [] } [eNan, eTwoCounters]).file.getD 1 "" =
       writeLine (([eNan, eTwoCounters] : List Event).getD 1 default)
         (if 1 = 0 then "init_hash"
          else JournalWriter.compute_sha256
            ((writeAll { journal_path := "j", last_hash := "init_hash", file := [] } [eNan, eTwoCounters]).file.getD (1 - 1) "")) ∧
     (writeAll { journal_path := "j", last_hash := "init_hash", file := [] } [eNan, eTwoCounters]).last_hash =
       JournalWriter.compute_sha256
         ((writeAll { journal_path := "j", last_hash := "init_hash", file := [] } [eNan, eTwoCounters]).file.getD
           (([eNan, eTwoCounters] : List Event).length - 1) "")) :=
  ⟨by decide, journal_write_hash_chain "j" "init_hash" [eNan, eTwoCounters] 1 (by decide)⟩

/-- C2 counterexample: `write` appends a line that `validate_strict`
rejects — no validation happens on the write path. -/
theorem write_appends_invalid_line :
    (JournalWriter.write { journal_path := "j", last_hash := "seed", file := [] } eNan).file =
      [writeLine eNan "seed"] ∧
    (JournalWriter.validate_strict (writeLine eNan "seed")).isOk = false := by
  constructor
  · rfl
  · decide

/-- C2 (amended): `JournalWriter::write` never invokes `validate_strict`;
it sanitizes, serializes and appends unconditionally, so a line the
schema-lock guard rejects (here: one carrying a `nan` token) is still
appended to the journal. -/
theorem write_does_not_validate :
    (∀ (w : JournalWriter) (e : Event),
       (w.write e).file = w.file ++ [writeLine e w.last_hash] ∧
       (w.write e).last_hash = JournalWriter.compute_sha256 (writeLine e w.last_hash)) ∧
    (JournalWriter.write { journal_path := "j", last_hash := "seed", file := [] } eNan).file =
      [writeLine eNan "seed"] ∧
    JournalWriter.validate_strict (writeLine eNan "seed") =
      .error "Schema Lock: Rejecting malformed float (NaN/Inf)" := by
  refine ⟨fun w e => ⟨rfl, rfl⟩, rfl, by rfl⟩

/-- C4 counterexample: two well-formed 12-field lines are rejected — the
canonical serialization of an event with two counter entries trips the
`,"`-counting field-count check, and the serialization of any event at
the engine's default severity `info` trips the `nan`/`inf` token check,
because `"level":"info"` contains `inf`. -/
theorem validate_strict_rejects_wellformed :
    JournalWriter.validate_strict (Event.to_json eTwoCounters "prevhash") =
      .error "Schema Lock: Unknown or missing top-level fields (Expected 12 keys total)" ∧
    JournalWriter.validate_strict (Event.to_json eInfo "prevhash") =
      .error "Schema Lock: Rejecting malformed float (NaN/Inf)" := by
  exact ⟨rfl, rfl⟩

/-- C4 (amended): `validate_strict` rejects oversized lines, lines with
`nan`/`inf` tokens, lines missing any of the 12 field markers, and lines
without the supported `event_version` marker; it accepts a line exactly
when, in addition, the line contains exactly eleven `,"` sequences — so
well-formed serializations whose nested maps/lists contribute further
`,"` sequences are rejected, not accepted. -/
theorem validate_strict_characterization :
    (∀ line : String, line.length > Event.MAX_PAYLOAD_BYTES →
       (JournalWriter.validate_strict line).isOk = false) ∧
    (∀ line : String, (strContains line "nan" || strContains line "inf") = true →
       (JournalWriter.validate_strict line).isOk = false) ∧
    (∀ line : String, ∀ k ∈ requiredKeys, strContains line ("\"" ++ k ++ "\":") = false →
       (JournalWriter.validate_strict line).isOk = false) ∧
    (∀ line : String,
       strContains line ("\"event_version\":\"" ++ Event.SCHEMA_VERSION ++ "\"") = false →
       (JournalWriter.validate_strict line).isOk = false) ∧
    (∀ line : String, ¬ line.length > Event.MAX_PAYLOAD_BYTES →
       (strContains line "nan" || strContains line "inf") = false →
       firstMissingKey requiredKeys line = none →
       strContains line ("\"event_version\":\"" ++ Event.SCHEMA_VERSION ++ "\"") = true →
       countCommaQuote line.data = 11 →
       JournalWriter.validate_strict line = .ok ()) := by
  refine ⟨?_, ?_, ?_, ?_, ?_⟩
  · intro line h
    rw [JournalWriter.validate_strict, if_pos h]
    rfl
  · intro line h
    rw [JournalWriter.validate_strict]
    by_cases hs : line.length > Event.MAX_PAYLOAD_BYTES
    · rw [if_pos hs]; rfl
    · rw [if_neg hs, if_pos h]; rfl
  · intro line k hk hmiss
    rw [JournalWriter.validate_strict]
    by_cases hs : line.length > Event.MAX_PAYLOAD_BYTES
    · rw [if_pos hs]; rfl
    · rw [if_neg hs]
      by_cases hn : (strContains line "nan" || strContains line "inf") = true
      · rw [if_pos hn]; rfl
      · rw [if_neg hn]
        cases hfm : firstMissingKey requiredKeys line with
        | none => exact absurd hfm (firstMissingKey_ne_none requiredKeys line k hk hmiss)
        | some k2 => rfl
  · intro line hver
    rw [JournalWriter.validate_strict]
    by_cases hs : line.length > Event.MAX_PAYLOAD_BYTES
    · rw [if_pos hs]; rfl
    · rw [if_neg hs]
      by_cases hn : (strContains line "nan" || strContains line "inf") = true
      · rw [if_pos hn]; rfl
      · rw [if_neg hn]
        cases hfm : firstMissingKey requiredKeys line with
        | none =>
          rw [hver]
          rfl
        | some k2 => rfl
  · intro line hs hn hfm hver hcount
    rw [JournalWriter.validate_strict, if_neg hs, if_neg (by rw [hn]; simp), hfm, hver]
    simp [hcount]

/-- Witness for C4's characterization at concrete lines: the canonical
12-field line of the repository's own test is accepted, and a line
missing the `ts` field is rejected. -/
theorem validate_strict_characterization_witness :
    JournalWriter.validate_strict "\x7b\"event_version\":\"1.0\",\"ts\":\"T\",\"run_id\":\"123\",\"round\":1,\"stage\":\"s\",\"level\":\"i\",\"event_type\":\"e\",\"message\":\"m\",\"counters_delta\":\x7b\x7d,\"usage_delta\":\x7b\x7d,\"artifact_paths\":[],\"prev_hash\":\"h\"\x7d" = .ok () ∧
    (JournalWriter.validate_strict "\x7b\"event_version\":\"1.0\"\x7d").isOk = false := by
  constructor
  · exact validate_strict_characterization.2.2.2.2 _ (by decide) (by decide) (by decide)
      (by decide) (by decide)
  · exact validate_strict_characterization.2.2.1 _ "ts" (by decide) (by decide)

/-! ### Claim C5 on the signature utility -/

/-- C5: signing then verifying with the same data and key succeeds for
all inputs; verification is recompute-and-compare, so any signature that
differs from the recomputed HMAC is rejected (and `verify` is a total
Boolean function — it cannot throw).  Concrete wrong-key and
tampered-data mismatches are rejected as well. -/
theorem verify_sign_roundtrip :
    (∀ data key : String,
       SignatureUtil.verify data (SignatureUtil.hmac_sha256 data key) key = true) ∧
    (∀ data signature key : String, signature ≠ SignatureUtil.hmac_sha256 data key →
       SignatureUtil.verify data signature key = false) ∧
    SignatureUtil.verify "d" (SignatureUtil.hmac_sha256 "d" "k") "wrong" = false ∧
    SignatureUtil.verify "d2" (SignatureUtil.hmac_sha256 "d" "k") "k" = false := by
  refine ⟨?_, ?_, by decide, by decide⟩
  · intro data key
    simp [SignatureUtil.verify]
  · intro data signature key h
    simp [SignatureUtil.verify]
    exact fun hh => absurd hh.symm h

/-- Witness for C5 at a concrete mismatching signature. -/
theorem verify_sign_roundtrip_witness :
    "bad" ≠ SignatureUtil.hmac_sha256 "d" "k" ∧
    SignatureUtil.verify "d" "bad" "k" = false :=
  ⟨by decide, verify_sign_roundtrip.2.1 "d" "bad" "k" (by decide)⟩

/-! ### Claim C9 on the subprocess executor -/

/-- C9 counterexample: a command whose `execvp` fails is observed exactly
like a worker that ran and exited with code 127 — not as a
distinguishable hard failure. -/
theorem execFail_indistinguishable :
    Subprocess.execute ["python3", "x.py"] 300 .execFail =
      Subprocess.execute ["python3", "x.py"] 300 (.ran 127 "") := by
  rfl

/-- C9 (amended): a `fork` (or `pipe`) failure is a hard error — an
exception, distinct from every ordinary exit and from the timeout
sentinels — but an `exec` failure is reported as the ordinary exit code
127 of the child, indistinguishable from a worker that itself exits
127. -/
theorem execute_error_taxonomy :
    Subprocess.execute ["python3", "x.py"] 300 .forkFail = .error "failed to fork" ∧
    Subprocess.execute ["python3", "x.py"] 300 .pipeFail = .error "failed to create pipe" ∧
    Subprocess.execute ["python3", "x.py"] 300 .execFail = .ok (127, "") ∧
    (∀ (code : Int) (outp : String),
       Subprocess.execute ["python3", "x.py"] 300 (.ran code outp) = .ok (code, outp)) ∧
    (∀ outp : String, Subprocess.execute ["python3", "x.py"] 300 (.hungKill outp) =
       .ok (-1, outp ++ "\n[HEIDI-CORE] Process hung and was forcefully SIGKILLed.")) := by
  refine ⟨rfl, rfl, rfl, fun code outp => rfl, fun outp => rfl⟩

/-! ### Claims C3 and C10 on `Core::start` / `Core::shutdown` -/

theorem gatekeeper_fail_branch (c1 : CoreState) (m now : String) :
    (Core.set_state (Core.emit_event c1 "gatekeeper_failed" m "init" "critical" [] now)
        "ERROR" "error").current_state = "ERROR" ∧
    (∃ e, (Core.set_state (Core.emit_event c1 "gatekeeper_failed" m "init" "critical" [] now)
        "ERROR" "error").events.getLast? = some e ∧
      e.event_type = "gatekeeper_failed" ∧ e.level = "critical") ∧
    (Core.set_state (Core.emit_event c1 "gatekeeper_failed" m "init" "critical" [] now)
        "ERROR" "error").current_round = c1.current_round ∧
    (Core.set_state (Core.emit_event c1 "gatekeeper_failed" m "init" "critical" [] now)
        "ERROR" "error").mode = c1.mode := by
  refine ⟨?_,
    ⟨{ ts := now, run_id := c1.config.run_id, round := c1.current_round, stage := "init",
       level := "critical", event_type := "gatekeeper_failed", message := m,
       usage_delta := [] }, ?_, rfl, rfl⟩, ?_, ?_⟩
  · rw [set_state_current_state]
  · rw [set_state_events, emit_event_events]
    exact List.getLast?_concat _
  · rw [set_state_current_round, emit_event_current_round]
  · rw [set_state_mode, emit_event_mode]

theorem start_real_nogov (c : CoreState) (env : StartEnv)
    (h1 : c.stop_requested = false) (h2 : c.has_governor = false) :
    Core.start c "real" env =
      (Core.set_state (Core.emit_event c "gatekeeper_failed"
        "REAL mode refused: Resource Governor (guardrails) NOT initialized" "init" "critical" [] env.now)
        "ERROR" "error",
       .threw "REAL mode refused: Resource Governor NOT initialized") := by
  rw [Core.start, h1, h2]
  simp

theorem start_real_doctor_nonzero (c : CoreState) (env : StartEnv) (st : Int) (outp : String)
    (h1 : c.stop_requested = false) (h2 : c.has_governor = true)
    (h3 : env.doctor = .ran st outp) (h4 : st ≠ 0) :
    Core.start c "real" env =
      (Core.set_state (Core.emit_event c "gatekeeper_failed"
        ("REAL mode refused: " ++ ("Doctor Status: " ++ toString st ++ " (Output Hash: " ++
          (JournalWriter.compute_sha256 outp).take 8 ++ ")")) "init" "critical" [] env.now)
        "ERROR" "error",
       .threw ("REAL mode refused: " ++ ("Doctor Status: " ++ toString st ++ " (Output Hash: " ++
          (JournalWriter.compute_sha256 outp).take 8 ++ ")"))) := by
  rw [Core.start, h1, h2, h3, Subprocess.execute]
  simp [h4]

theorem start_real_env_missing (c : CoreState) (env : StartEnv) (outp : String)
    (h1 : c.stop_requested = false) (h2 : c.has_governor = true)
    (h3 : env.doctor = .ran 0 outp)
    (h5 : env.signing_key = none ∨ env.keystore_path = none) :
    Core.start c "real" env =
      (Core.set_state (Core.emit_event
          (Core.emit_event c "gatekeeper_passed"
            ("Doctor Status: " ++ toString (0 : Int) ++ " (Output Hash: " ++
              (JournalWriter.compute_sha256 outp).take 8 ++ ")") "init" "info" [] env.now)
          "gatekeeper_failed" "REAL mode refused: Missing signing key or keystore path"
          "init" "critical" [] env.now)
        "ERROR" "error",
       .returned) := by
  rw [Core.start, h1, h2, h3, Subprocess.execute]
  rcases h5 with h | h <;> rw [h] <;> simp

/-- C3: whenever `start("real")` runs on a live engine (stop flag clear)
whose doctor subprocess can be spawned, and either mandatory environment
secret (`HEIDI_SIGNING_KEY` or `HEIDI_KEYSTORE_PATH`) is absent, the
engine journals a critical `gatekeeper_failed` event, ends in the
`ERROR` state (never `COLLECTING`), leaves round and mode untouched, and
does not complete `start`. -/
theorem start_real_missing_secrets (c : CoreState) (env : StartEnv) (st : Int) (outp : String)
    (hstop : c.stop_requested = false)
    (hdoc : env.doctor = .ran st outp)
    (hmiss : env.signing_key = none ∨ env.keystore_path = none) :
    (Core.start c "real" env).1.current_state = "ERROR" ∧
    (∃ e, (Core.start c "real" env).1.events.getLast? = some e ∧
       e.event_type = "gatekeeper_failed" ∧ e.level = "critical") ∧
    (Core.start c "real" env).1.current_state ≠ "COLLECTING" ∧
    (Core.start c "real" env).1.current_round = c.current_round ∧
    (Core.start c "real" env).1.mode = c.mode ∧
    (Core.start c "real" env).2 ≠ StartOutcome.completed := by
  cases hgov : c.has_governor with
  | false =>
    rw [start_real_nogov c env hstop hgov]
    have key := gatekeeper_fail_branch c
      "REAL mode refused: Resource Governor (guardrails) NOT initialized" env.now
    exact ⟨key.1, key.2.1, by rw [key.1]; decide, key.2.2.1, key.2.2.2, by simp⟩
  | true =>
    by_cases hst : st = 0
    · subst hst
      rw [start_real_env_missing c env outp hstop hgov hdoc hmiss]
      have key := gatekeeper_fail_branch
        (Core.emit_event c "gatekeeper_passed"
          ("Doctor Status: " ++ toString (0 : Int) ++ " (Output Hash: " ++
            (JournalWriter.compute_sha256 outp).take 8 ++ ")") "init" "info" [] env.now)
        "REAL mode refused: Missing signing key or keystore path" env.now
      refine ⟨key.1, key.2.1, by rw [key.1]; decide, ?_, ?_, by simp⟩
      · rw [key.2.2.1, emit_event_current_round]
      · rw [key.2.2.2, emit_event_mode]
    · rw [start_real_doctor_nonzero c env st outp hstop hgov hdoc hst]
      have key := gatekeeper_fail_branch c
        ("REAL mode refused: " ++ ("Doctor Status: " ++ toString st ++ " (Output Hash: " ++
          (JournalWriter.compute_sha256 outp).take 8 ++ ")")) env.now
      exact ⟨key.1, key.2.1, by rw [key.1]; decide, key.2.2.1, key.2.2.2, by simp⟩


/-- Witness for C3: a freshly initialized engine, doctor exiting 0, both
secrets absent. -/
theorem start_real_missing_secrets_witness :
    (Core.init {}).stop_requested = false ∧
    (({ now := "t", doctor := .ran 0 "", signing_key := none,
        keystore_path := none } : StartEnv).doctor = .ran 0 "") ∧
    ((Core.start (Core.init {}) "real"
        { now := "t", doctor := .ran 0 "", signing_key := none, keystore_path := none }).1.current_state = "ERROR" ∧
     (∃ e, (Core.start (Core.init {}) "real"
        { now := "t", doctor := .ran 0 "", signing_key := none, keystore_path := none }).1.events.getLast? = some e ∧
        e.event_type = "gatekeeper_failed" ∧ e.level = "critical") ∧
     (Core.start (Core.init {}) "real"
        { now := "t", doctor := .ran 0 "", signing_key := none, keystore_path := none }).1.current_state ≠ "COLLECTING" ∧
     (Core.start (Core.init {}) "real"
        { now := "t", doctor := .ran 0 "", signing_key := none, keystore_path := none }).1.current_round = (Core.init {}).current_round ∧
     (Core.start (Core.init {}) "real"
        { now := "t", doctor := .ran 0 "", signing_key := none, keystore_path := none }).1.mode = (Core.init {}).mode ∧
     (Core.start (Core.init {}) "real"
        { now := "t", doctor := .ran 0 "", signing_key := none, keystore_path := none }).2 ≠ StartOutcome.completed) :=
  ⟨rfl, rfl, start_real_missing_secrets (Core.init {}) _ 0 "" rfl rfl (Or.inl rfl)⟩

/-- C10: `shutdown` sets the stop flag and forces `IDLE`, and `start`
tests the stop flag at its very top — before ever clearing it — so every
subsequent `start` on a shut-down engine returns immediately with no
state, round, mode or flag change and no event emitted. -/
theorem shutdown_blocks_restart (c : CoreState) (now : String) :
    (Core.shutdown c now).stop_requested = true ∧
    (Core.shutdown c now).current_state = "IDLE" ∧
    (∀ (mode : String) (env : StartEnv),
       Core.start (Core.shutdown c now) mode env = (Core.shutdown c now, .returned)) ∧
    (∀ (c2 : CoreState) (mode : String) (env : StartEnv), c2.stop_requested = true →
       Core.start c2 mode env = (c2, .returned)) := by
  have hstop : ∀ (c2 : CoreState) (mode : String) (env : StartEnv), c2.stop_requested = true →
      Core.start c2 mode env = (c2, .returned) := by
    intro c2 mode env h
    rw [Core.start, h]
    simp
  have hflag : (Core.shutdown c now).stop_requested = true := by
    simp [Core.shutdown, Core.emit_event, Core.set_state]
  exact ⟨hflag, rfl, fun mode env => hstop _ mode env hflag, hstop⟩

/-- Witness for C10 on a concrete shut-down engine. -/
theorem shutdown_blocks_restart_witness :
    (Core.shutdown (Core.init {}) "t0").stop_requested = true ∧
    Core.start (Core.shutdown (Core.init {}) "t0") "full"
      { now := "t1", doctor := .ran 0 "", signing_key := some "k", keystore_path := some "p" } =
      (Core.shutdown (Core.init {}) "t0", .returned) := by
  refine ⟨(shutdown_blocks_restart (Core.init {}) "t0").1, ?_⟩
  exact (shutdown_blocks_restart (Core.init {}) "t0").2.2.2 _ "full" _
    (shutdown_blocks_restart (Core.init {}) "t0").1

/-! ### Claim C6 on the `Validating` transition of `Core::tick` -/

/-- The guardrails loop with no pending hold decisions proceeds at once. -/
theorem governorWait_nil (c : CoreState) (stage now : String) (w : Nat) :
    Core.governorWait c stage now [] w = (c, true) := rfl

/-- `run_script` in mock mode: immediate success with synthetic usage. -/
theorem run_script_mock (c : CoreState) (sn st : String) (env : ScriptEnv)
    (h1 : ¬(c.mode = "full" ∧ c.current_state = "IDLE"))
    (h2 : c.stop_requested = false)
    (h3 : c.config.mock_subprocesses = true) :
    Core.run_script c sn st env =
      (true, Core.emit_event c "script_success" (sn ++ " completed successfully (mocked)")
        st "info" [("system_cpu_pct", 5), ("system_mem_available_kb_delta", 1024)] env.now) := by
  rw [Core.run_script, if_neg h1, h2, h3]
  simp

/-- `tick` dispatches to the `VALIDATING` arm. -/
theorem tick_dispatch_validating (c : CoreState) (env : ScriptEnv)
    (hstate : c.current_state = "VALIDATING") (hstop : c.stop_requested = false) :
    Core.tick c env = Core.tickValidating c env := by
  rw [Core.tick, hstate, hstop]
  simp

/-- C6 (amended): from `VALIDATING`, when the validate worker invocation
succeeds the engine moves to `TESTING` if unit tests are enabled, else to
`FINALIZING` exactly when the mode is `full` (real mode goes to `IDLE`),
else to `IDLE`; when `run_script` reports failure its state is adopted
unchanged, and a worker that ran and exited non-zero leaves the engine in
`ERROR`. -/
theorem tick_validating_transition (c : CoreState) (env : ScriptEnv)
    (hstate : c.current_state = "VALIDATING") (hstop : c.stop_requested = false) :
    (∀ c3 : CoreState,
       Core.run_script (Core.emit_event c "stage_start" "Starting validation" "validate" "info" [] env.now)
         "02_validate_clean.py" "validate" env = (true, c3) →
       (Core.tick c env).current_state =
         (if c3.config.run_unit_tests = true then "TESTING"
          else if c3.mode = "full" then "FINALIZING" else "IDLE")) ∧
    (∀ c3 : CoreState,
       Core.run_script (Core.emit_event c "stage_start" "Starting validation" "validate" "info" [] env.now)
         "02_validate_clean.py" "validate" env = (false, c3) →
       Core.tick c env = c3) ∧
    (∀ (st : Int) (outp : String),
       c.config.mock_subprocesses = false → env.governor = [] →
       env.subprocess = .ran st outp → st ≠ 0 →
       (Core.tick c env).current_state = "ERROR") := by
  have hd := tick_dispatch_validating c env hstate hstop
  refine ⟨?_, ?_, ?_⟩
  · intro c3 h
    rw [hd, Core.tickValidating, h]
    cases hut : c3.config.run_unit_tests with
    | true =>
      simp only [emit_event_config, hut, if_pos rfl, set_state_current_state, if_true]
    | false =>
      by_cases hm : c3.mode = "full"
      · simp only [emit_event_config, emit_event_mode, hut]
        simp [hm, set_state_current_state]
      · simp only [emit_event_config, emit_event_mode, hut]
        simp [hm, set_state_current_state]
  · intro c3 h
    rw [hd, Core.tickValidating, h]
  · intro st outp hmock hgov hsub hnz
    have hns : ¬((Core.emit_event c "stage_start" "Starting validation" "validate" "info" [] env.now).mode = "full" ∧
        (Core.emit_event c "stage_start" "Starting validation" "validate" "info" [] env.now).current_state = "IDLE") := by
      rw [emit_event_current_state, hstate]
      simp
    have hrs : Core.run_script
        (Core.emit_event c "stage_start" "Starting validation" "validate" "info" [] env.now)
        "02_validate_clean.py" "validate" env =
        (false, Core.set_state
          (Core.emit_event
            (Core.emit_event c "stage_start" "Starting validation" "validate" "info" [] env.now)
            "pipeline_error"
            (JournalWriter.sanitize ("02_validate_clean.py" ++ " failed with exit code " ++
              toString st ++ ":\n" ++ outp.take 200))
            "pipeline" "error" env.usage env.now)
          "ERROR" "error") := by
      rw [Core.run_script, if_neg hns, emit_event_stop, hstop, emit_event_config, hmock, hgov]
      rw [governorWait_nil]
      simp only [Core.run_script_exec, hsub, Subprocess.execute]
      simp [hnz]
    rw [hd, Core.tickValidating, hrs, set_state_current_state]

/-- The concrete states and stage environment used to exercise the
`VALIDATING` transition. -/
def c6Cfg : Config := { run_id := "r", mock_subprocesses := true }

def c6FullState : CoreState :=
  { Core.init c6Cfg with current_state := "VALIDATING", mode := "full" }

def c6RealState : CoreState :=
  { Core.init c6Cfg with current_state := "VALIDATING", mode := "real" }

def c6Env : ScriptEnv :=
  { now := "t", governor := [], usage := [], subprocess := .ran 0 "" }

/-- Witness for C6 (amended): in mock-worker `full` mode with unit tests
disabled, a successful validation moves the engine to `FINALIZING`. -/
theorem tick_validating_transition_witness :
    c6FullState.current_state = "VALIDATING" ∧
    (Core.tick c6FullState c6Env).current_state = "FINALIZING" := by
  refine ⟨rfl, ?_⟩
  have hm := run_script_mock
    (Core.emit_event c6FullState "stage_start" "Starting validation" "validate" "info" [] c6Env.now)
    "02_validate_clean.py" "validate" c6Env
    (by rw [emit_event_mode, emit_event_current_state]; decide)
    (by rw [emit_event_stop]; rfl)
    (by rw [emit_event_config]; rfl)
  have ht := (tick_validating_transition c6FullState c6Env rfl rfl).1 _ hm
  rw [ht, emit_event_config, emit_event_config]
  simp [emit_event_mode, emit_event_mode, c6FullState, c6Cfg, Core.init]

/-- C6 counterexample: in `real` mode with unit tests disabled, a
successful validation moves the engine to `IDLE`, not to `FINALIZING`:
only mode `full` reaches `FINALIZING`. -/
theorem validating_real_goes_idle :
    c6RealState.mode = "real" ∧
    c6RealState.config.run_unit_tests = false ∧
    (Core.tick c6RealState c6Env).current_state = "IDLE" ∧
    (Core.tick c6RealState c6Env).current_state ≠ "FINALIZING" := by
  have hm := run_script_mock
    (Core.emit_event c6RealState "stage_start" "Starting validation" "validate" "info" [] c6Env.now)
    "02_validate_clean.py" "validate" c6Env
    (by rw [emit_event_mode, emit_event_current_state]; decide)
    (by rw [emit_event_stop]; rfl)
    (by rw [emit_event_config]; rfl)
  have hd := tick_dispatch_validating c6RealState c6Env rfl rfl
  have hidle : (Core.tick c6RealState c6Env).current_state = "IDLE" := by
    rw [hd, Core.tickValidating, hm]
    simp only [emit_event_config, emit_event_mode]
    simp [c6RealState, c6Cfg, Core.init, set_state_current_state]
  refine ⟨rfl, rfl, hidle, ?_⟩
  rw [hidle]
  decide

/-! ### Claim C8 on status persistence -/

/-- The status document produced for run `r1` entering `COLLECTING`. -/
def c8Doc : String := statusDoc "r1" "COLLECTING" 0 "boot"

/-- C8 counterexample: the persisted status JSON contains only the run
id, status, current round and current stage — no total rounds, no mode,
no samples-per-round, no timestamp field. -/
theorem set_state_status_missing_fields :
    (Core.set_state (Core.init { run_id := "r1", out_dir := "od" }) "COLLECTING" "boot").fs =
      [FsOp.writeFile "od/state.json.tmp" c8Doc,
       FsOp.rename "od/state.json.tmp" "od/state.json"] ∧
    strContains c8Doc "mode" = false ∧
    strContains c8Doc "total" = false ∧
    strContains c8Doc "samples" = false ∧
    strContains c8Doc "last" = false ∧
    strContains c8Doc "time" = false := by
  refine ⟨?_, by decide, by decide, by decide, by decide, by decide⟩
  rw [set_state_fs]
  decide

/-- C8 (amended): on every state change `set_state` persists the status
JSON atomically — a temp-file write followed by a rename onto the status
path — and the document carries the run id, a status equal to
`completed` when the new state is `IDLE` and `running` otherwise, the
current round and the current stage (but not the total rounds, mode,
samples-per-round or a timestamp). -/
theorem set_state_persists_status (c : CoreState) (new_state stage : String) :
    (Core.set_state c new_state stage).current_state = new_state ∧
    (Core.set_state c new_state stage).fs = c.fs ++
      [FsOp.writeFile (c.status.status_path ++ ".tmp")
         (statusDoc c.config.run_id new_state c.current_round stage),
       FsOp.rename (c.status.status_path ++ ".tmp") c.status.status_path] ∧
    strContains (statusDoc "r1" "IDLE" 2 "complete") "\"status\":\"completed\"" = true ∧
    strContains (statusDoc "r1" "COLLECTING" 2 "generate") "\"status\":\"running\"" = true :=
  ⟨set_state_current_state c new_state stage, set_state_fs c new_state stage,
   by decide, by decide⟩

/-! ### Claim C7 on `sanitize`: scan-step lemmas for `replaceAll` -/

theorem replaceAllGo_nil (pat : List Char → Option Nat) (repl : List Char) (fuel : Nat) :
    replaceAllGo pat repl fuel [] = [] := by
  cases fuel <;> rfl

theorem replaceAllGo_fuel (pat : List Char → Option Nat) (repl : List Char) :
    ∀ (f1 : Nat) (l : List Char) (f2 : Nat), l.length ≤ f1 → l.length ≤ f2 →
      replaceAllGo pat repl f1 l = replaceAllGo pat repl f2 l := by
  intro f1
  induction f1 with
  | zero =>
    intro l f2 h1 _
    have : l = [] := List.eq_nil_of_length_eq_zero (Nat.le_zero.mp h1)
    rw [this, replaceAllGo_nil, replaceAllGo_nil]
  | succ g ih =>
    intro l f2 h1 h2
    cases l with
    | nil => rw [replaceAllGo_nil, replaceAllGo_nil]
    | cons c rest =>
      cases f2 with
      | zero => simp at h2
      | succ h =>
        cases hp : pat (c :: rest) with
        | none =>
          simp only [replaceAllGo, hp]
          rw [ih rest h (by simpa using h1) (by simpa using h2)]
        | some n =>
          simp only [replaceAllGo, hp]
          have hq : ((c :: rest).drop (max 1 n)).length ≤ rest.length := by
            rw [List.length_drop]
            simp only [List.length_cons]
            omega
          have h1a : rest.length ≤ g := by
            simp only [List.length_cons] at h1
            omega
          have h2a : rest.length ≤ h := by
            simp only [List.length_cons] at h2
            omega
          rw [ih ((c :: rest).drop (max 1 n)) h (le_trans hq h1a) (le_trans hq h2a)]

theorem replaceAll_cons_none (pat : List Char → Option Nat) (repl : List Char)
    (c : Char) (l : List Char) (h : pat (c :: l) = none) :
    replaceAll pat repl (c :: l) = c :: replaceAll pat repl l := by
  rw [replaceAll, replaceAll]
  simp only [List.length_cons, replaceAllGo, h]

theorem replaceAll_cons_some (pat : List Char → Option Nat) (repl : List Char)
    (c : Char) (l : List Char) (n : Nat) (h : pat (c :: l) = some n) :
    replaceAll pat repl (c :: l) =
      repl ++ replaceAll pat repl ((c :: l).drop (max 1 n)) := by
  rw [replaceAll, replaceAll]
  simp only [List.length_cons, replaceAllGo, h]
  congr 1
  apply replaceAllGo_fuel
  · rw [List.length_drop]
    simp only [List.length_cons]
    omega
  · exact Nat.le.refl

theorem replaceAll_eq_self (pat : List Char → Option Nat) (repl : List Char) :
    ∀ l : List Char, (∀ s, s <:+ l → s ≠ [] → pat s = none) →
      replaceAll pat repl l = l := by
  intro l
  induction l with
  | nil => intro _; rfl
  | cons c rest ih =>
    intro h
    rw [replaceAll_cons_none pat repl c rest (h _ (List.suffix_refl _) (by simp))]
    rw [ih (fun s hs hne => h s (hs.trans (List.suffix_cons c rest)) hne)]

/-! ### Character-class and matcher facts -/

theorem alnum_ne_underscore (c : Char) (h : isAlnumCh c = true) : c ≠ '_' := by
  intro he
  rw [he] at h
  exact absurd h (by decide)

theorem alnum_ne_dash (c : Char) (h : isAlnumCh c = true) : c ≠ '-' := by
  intro he
  rw [he] at h
  exact absurd h (by decide)

theorem isSpaceCh_of_alnum (c : Char) (h : isAlnumCh c = true) : isSpaceCh c = false := by
  cases hsp : isSpaceCh c with
  | false => rfl
  | true =>
    exfalso
    simp only [isSpaceCh, Bool.or_eq_true, decide_eq_true_eq] at hsp
    rcases hsp with ((((h' | h') | h') | h') | h') | h' <;>
      first
        | (subst h'; exact absurd h (by decide))
        | (exact absurd h (by decide))

theorem isWordDashCh_of_alnum (c : Char) (h : isAlnumCh c = true) : isWordDashCh c = true := by
  simp [isWordDashCh, isWordCh, h]

theorem isAlnumCh_not_space (c : Char) (h : isAlnumCh c = true) : ¬ isSpaceCh c = true := by
  rw [isSpaceCh_of_alnum c h]
  simp

theorem runLen_head_false (p : Char → Bool) (c : Char) (rest : List Char)
    (h : p c = false) : runLen p (c :: rest) = 0 := by
  simp [runLen, h]

theorem runLen_append_all (p : Char → Bool) (l post : List Char)
    (h : ∀ c ∈ l, p c = true) : runLen p (l ++ post) = l.length + runLen p post := by
  induction l with
  | nil => simp
  | cons c rest ih =>
    have hc : p c = true := h c (by simp)
    simp only [List.cons_append, runLen, hc, if_true]
    rw [show rest.append post = rest ++ post from rfl, ih (fun x hx => h x (by simp [hx]))]
    simp only [List.length_cons]
    omega

theorem runLen_all (p : Char → Bool) (l : List Char) (h : ∀ c ∈ l, p c = true) :
    runLen p l = l.length := by
  have := runLen_append_all p l [] h
  simpa using this

theorem matchGhp_eq_none (s : List Char) (h : ∀ x ∈ s, x ≠ '_') : matchGhp s = none := by
  match s with
  | [] => rfl
  | [_] => rfl
  | [_, _] => rfl
  | [_, _, _] => rfl
  | c1 :: c2 :: c3 :: c4 :: rest =>
    show (if c1 = 'g' ∧ c2 = 'h' ∧ c3 = 'p' ∧ c4 = '_' ∧ 36 ≤ runLen isAlnumCh rest
          then some 40 else none) = none
    rw [if_neg]
    intro hc
    exact h c4 (by simp) hc.2.2.2.1

theorem matchSk_eq_none_alnum (s : List Char) (h : ∀ x ∈ s, isAlnumCh x = true) :
    matchSk s = none := by
  match s with
  | [] => rfl
  | [_] => rfl
  | [_, _] => rfl
  | c1 :: c2 :: c3 :: rest =>
    show (if c1 = 's' ∧ c2 = 'k' ∧ c3 = '-' ∧ 20 ≤ runLen isAlnumCh rest
          then some (3 + runLen isAlnumCh rest) else none) = none
    rw [if_neg]
    intro hc
    exact alnum_ne_dash c3 (h c3 (by simp)) hc.2.2.1

theorem matchSk_eq_none_head (c1 : Char) (t : List Char) (h : c1 ≠ 's') :
    matchSk (c1 :: t) = none := by
  match t with
  | [] => rfl
  | [_] => rfl
  | c2 :: c3 :: rest =>
    show (if c1 = 's' ∧ c2 = 'k' ∧ c3 = '-' ∧ 20 ≤ runLen isAlnumCh rest
          then some (3 + runLen isAlnumCh rest) else none) = none
    rw [if_neg]
    intro hc
    exact h hc.1

theorem matchBearer_eq_none_head (c1 : Char) (t : List Char) (h : c1 ≠ 'B') :
    matchBearer (c1 :: t) = none := by
  match t with
  | [] => rfl
  | [_] => rfl
  | [_, _] => rfl
  | [_, _, _] => rfl
  | [_, _, _, _] => rfl
  | c2 :: c3 :: c4 :: c5 :: c6 :: rest =>
    show (if c1 = 'B' ∧ c2 = 'e' ∧ c3 = 'a' ∧ c4 = 'r' ∧ c5 = 'e' ∧ c6 = 'r' then
            let w := runLen isSpaceCh rest
            let r := runLen isWordDashCh (rest.drop w)
            if 1 ≤ w ∧ 20 ≤ r then some (6 + w + r) else none
          else none) = none
    rw [if_neg]
    intro hc
    exact h hc.1

theorem matchBearer_eq_none_alnum (s : List Char) (h : ∀ x ∈ s, isAlnumCh x = true) :
    matchBearer s = none := by
  match s with
  | [] => rfl
  | [_] => rfl
  | [_, _] => rfl
  | [_, _, _] => rfl
  | [_, _, _, _] => rfl
  | [_, _, _, _, _] => rfl
  | c1 :: c2 :: c3 :: c4 :: c5 :: c6 :: rest =>
    show (if c1 = 'B' ∧ c2 = 'e' ∧ c3 = 'a' ∧ c4 = 'r' ∧ c5 = 'e' ∧ c6 = 'r' then
            let w := runLen isSpaceCh rest
            let r := runLen isWordDashCh (rest.drop w)
            if 1 ≤ w ∧ 20 ≤ r then some (6 + w + r) else none
          else none) = none
    by_cases hc : c1 = 'B' ∧ c2 = 'e' ∧ c3 = 'a' ∧ c4 = 'r' ∧ c5 = 'e' ∧ c6 = 'r'
    · rw [if_pos hc]
      have hw : runLen isSpaceCh rest = 0 := by
        cases rest with
        | nil => rfl
        | cons c r =>
          exact runLen_head_false _ _ _ (isSpaceCh_of_alnum c (h c (by simp)))
      simp [hw]
    · rw [if_neg hc]

theorem matchChar_eq_none (t c : Char) (rest : List Char) (h : c ≠ t) :
    matchChar t (c :: rest) = none := by
  show (if c = t then some 1 else none) = none
  rw [if_neg h]

/-! ### Claim C7: universal freedom of `sanitize` output from secret shapes

The three redaction matchers share two structural properties: every
character a match consumes is a word, dash or space character (`isTok`),
and a match on some text stays a match however the text after the
consumed part is changed (the `..._det` lemmas).  Each replacement
string begins with a non-token character and no match can start inside
it, so a scan pass can neither leave a match of its own pattern in its
output nor manufacture a match of another pattern; `scanGo_free` proves
this once for any such matcher pair, and the six passes of `sanitize`
are chained through it. -/

/-- A pattern matches at some position of the text. -/
def scanMatch (pat : List Char → Option Nat) : List Char → Bool
  | [] => (pat []).isSome
  | c :: rest => (pat (c :: rest)).isSome || scanMatch pat rest

/-- A secret-shaped substring occurs somewhere (any of the three
redaction patterns matches at some position). -/
def containsSecretShape (s : String) : Bool :=
  scanMatch matchGhp s.data || scanMatch matchSk s.data || scanMatch matchBearer s.data

/-- The characters any of the three redaction patterns can consume. -/
def isTok (c : Char) : Bool := isWordDashCh c || isSpaceCh c

theorem runLen_le_length (p : Char → Bool) : ∀ l : List Char, runLen p l ≤ l.length := by
  intro l
  induction l with
  | nil => simp [runLen]
  | cons c t ih =>
    by_cases hc : p c = true
    · simp only [runLen, hc, if_true, List.length_cons]
      omega
    · rw [runLen_head_false p c t (by revert hc; cases p c <;> simp)]
      simp

theorem runLen_take_mem (p : Char → Bool) :
    ∀ (l : List Char) (k : Nat), k ≤ runLen p l → ∀ c ∈ l.take k, p c = true := by
  intro l
  induction l with
  | nil => intro k _ c hc; simp at hc
  | cons a t ih =>
    intro k hk c hc
    cases k with
    | zero => simp at hc
    | succ k' =>
      by_cases ha : p a = true
      · simp only [runLen, ha, if_true] at hk
        rw [List.take_succ_cons] at hc
        rcases List.mem_cons.mp hc with rfl | hc'
        · exact ha
        · exact ih k' (by omega) c hc'
      · rw [runLen_head_false p a t (by revert ha; cases p a <;> simp)] at hk
        omega

theorem isTok_of_alnum (c : Char) (h : isAlnumCh c = true) : isTok c = true := by
  simp [isTok, isWordDashCh_of_alnum c h]

theorem isSpaceCh_of_wordDash (c : Char) (h : isWordDashCh c = true) : isSpaceCh c = false := by
  simp only [isWordDashCh, isWordCh, Bool.or_eq_true, decide_eq_true_eq] at h
  rcases h with (h | h) | h
  · exact isSpaceCh_of_alnum c h
  · subst h; decide
  · subst h; decide

theorem matchGhp_ne1 (c1 : Char) (t : List Char) (h : c1 ≠ 'g') :
    matchGhp (c1 :: t) = none := by
  match t with
  | [] => rfl
  | [_] => rfl
  | [_, _] => rfl
  | c2 :: c3 :: c4 :: rest =>
    show (if c1 = 'g' ∧ c2 = 'h' ∧ c3 = 'p' ∧ c4 = '_' ∧ 36 ≤ runLen isAlnumCh rest
          then some 40 else none) = none
    exact if_neg (fun hc => h hc.1)

theorem matchGhp_ne2 (c1 c2 : Char) (t : List Char) (h : c2 ≠ 'h') :
    matchGhp (c1 :: c2 :: t) = none := by
  match t with
  | [] => rfl
  | [_] => rfl
  | c3 :: c4 :: rest =>
    show (if c1 = 'g' ∧ c2 = 'h' ∧ c3 = 'p' ∧ c4 = '_' ∧ 36 ≤ runLen isAlnumCh rest
          then some 40 else none) = none
    exact if_neg (fun hc => h hc.2.1)

theorem matchGhp_ne3 (c1 c2 c3 : Char) (t : List Char) (h : c3 ≠ 'p') :
    matchGhp (c1 :: c2 :: c3 :: t) = none := by
  match t with
  | [] => rfl
  | c4 :: rest =>
    show (if c1 = 'g' ∧ c2 = 'h' ∧ c3 = 'p' ∧ c4 = '_' ∧ 36 ≤ runLen isAlnumCh rest
          then some 40 else none) = none
    exact if_neg (fun hc => h hc.2.2.1)

theorem matchGhp_ne4 (c1 c2 c3 c4 : Char) (t : List Char) (h : c4 ≠ '_') :
    matchGhp (c1 :: c2 :: c3 :: c4 :: t) = none := by
  show (if c1 = 'g' ∧ c2 = 'h' ∧ c3 = 'p' ∧ c4 = '_' ∧ 36 ≤ runLen isAlnumCh t
        then some 40 else none) = none
  exact if_neg (fun hc => h hc.2.2.2.1)

theorem matchSk_ne2 (c1 c2 : Char) (t : List Char) (h : c2 ≠ 'k') :
    matchSk (c1 :: c2 :: t) = none := by
  match t with
  | [] => rfl
  | c3 :: rest =>
    show (if c1 = 's' ∧ c2 = 'k' ∧ c3 = '-' ∧ 20 ≤ runLen isAlnumCh rest
          then some (3 + runLen isAlnumCh rest) else none) = none
    exact if_neg (fun hc => h hc.2.1)

theorem matchSk_ne3 (c1 c2 c3 : Char) (t : List Char) (h : c3 ≠ '-') :
    matchSk (c1 :: c2 :: c3 :: t) = none := by
  show (if c1 = 's' ∧ c2 = 'k' ∧ c3 = '-' ∧ 20 ≤ runLen isAlnumCh t
        then some (3 + runLen isAlnumCh t) else none) = none
  exact if_neg (fun hc => h hc.2.2.1)

theorem matchBearer_ne2 (c1 c2 : Char) (t : List Char) (h : c2 ≠ 'e') :
    matchBearer (c1 :: c2 :: t) = none := by
  match t with
  | [] => rfl
  | [_] => rfl
  | [_, _] => rfl
  | [_, _, _] => rfl
  | c3 :: c4 :: c5 :: c6 :: rest =>
    show (if c1 = 'B' ∧ c2 = 'e' ∧ c3 = 'a' ∧ c4 = 'r' ∧ c5 = 'e' ∧ c6 = 'r' then
            let w := runLen isSpaceCh rest
            let r := runLen isWordDashCh (rest.drop w)
            if 1 ≤ w ∧ 20 ≤ r then some (6 + w + r) else none
          else none) = none
    exact if_neg (fun hc => h hc.2.1)

theorem matchBearer_ne3 (c1 c2 c3 : Char) (t : List Char) (h : c3 ≠ 'a') :
    matchBearer (c1 :: c2 :: c3 :: t) = none := by
  match t with
  | [] => rfl
  | [_] => rfl
  | [_, _] => rfl
  | c4 :: c5 :: c6 :: rest =>
    show (if c1 = 'B' ∧ c2 = 'e' ∧ c3 = 'a' ∧ c4 = 'r' ∧ c5 = 'e' ∧ c6 = 'r' then
            let w := runLen isSpaceCh rest
            let r := runLen isWordDashCh (rest.drop w)
            if 1 ≤ w ∧ 20 ≤ r then some (6 + w + r) else none
          else none) = none
    exact if_neg (fun hc => h hc.2.2.1)

theorem matchBearer_ne4 (c1 c2 c3 c4 : Char) (t : List Char) (h : c4 ≠ 'r') :
    matchBearer (c1 :: c2 :: c3 :: c4 :: t) = none := by
  match t with
  | [] => rfl
  | [_] => rfl
  | c5 :: c6 :: rest =>
    show (if c1 = 'B' ∧ c2 = 'e' ∧ c3 = 'a' ∧ c4 = 'r' ∧ c5 = 'e' ∧ c6 = 'r' then
            let w := runLen isSpaceCh rest
            let r := runLen isWordDashCh (rest.drop w)
            if 1 ≤ w ∧ 20 ≤ r then some (6 + w + r) else none
          else none) = none
    exact if_neg (fun hc => h hc.2.2.2.1)

theorem matchBearer_ne5 (c1 c2 c3 c4 c5 : Char) (t : List Char) (h : c5 ≠ 'e') :
    matchBearer (c1 :: c2 :: c3 :: c4 :: c5 :: t) = none := by
  match t with
  | [] => rfl
  | c6 :: rest =>
    show (if c1 = 'B' ∧ c2 = 'e' ∧ c3 = 'a' ∧ c4 = 'r' ∧ c5 = 'e' ∧ c6 = 'r' then
            let w := runLen isSpaceCh rest
            let r := runLen isWordDashCh (rest.drop w)
            if 1 ≤ w ∧ 20 ≤ r then some (6 + w + r) else none
          else none) = none
    exact if_neg (fun hc => h hc.2.2.2.2.1)

theorem matchBearer_ne6 (c1 c2 c3 c4 c5 c6 : Char) (t : List Char) (h : c6 ≠ 'r') :
    matchBearer (c1 :: c2 :: c3 :: c4 :: c5 :: c6 :: t) = none := by
  show (if c1 = 'B' ∧ c2 = 'e' ∧ c3 = 'a' ∧ c4 = 'r' ∧ c5 = 'e' ∧ c6 = 'r' then
          let w := runLen isSpaceCh t
          let r := runLen isWordDashCh (t.drop w)
          if 1 ≤ w ∧ 20 ≤ r then some (6 + w + r) else none
        else none) = none
  exact if_neg (fun hc => h hc.2.2.2.2.2)

/-- The literal `lit` provably fails against `s` within `s` itself: a
character of `s` at a position below `lit.length` differs from `lit`. -/
def litFails : List Char → List Char → Bool
  | [], _ => false
  | _ :: _, [] => false
  | l :: ls, c :: cs => decide (c ≠ l) || litFails ls cs

/-- Every suffix of `a` breaks the literal `lit` within `a` itself, so no
match led by `lit` can start inside `a`, whatever follows. -/
def litFree (lit : List Char) : List Char → Bool
  | [] => true
  | c :: t => litFails lit (c :: t) && litFree lit t

theorem matchGhp_of_litFails : ∀ (s v : List Char),
    litFails ['g', 'h', 'p', '_'] s = true → matchGhp (s ++ v) = none := by
  intro s v h
  match s with
  | [] => simp [litFails] at h
  | c1 :: t1 =>
    simp only [litFails, Bool.or_eq_true, decide_eq_true_eq] at h
    rcases h with h | h
    · exact matchGhp_ne1 c1 (t1 ++ v) h
    · match t1 with
      | [] => simp [litFails] at h
      | c2 :: t2 =>
        simp only [litFails, Bool.or_eq_true, decide_eq_true_eq] at h
        rcases h with h | h
        · exact matchGhp_ne2 c1 c2 (t2 ++ v) h
        · match t2 with
          | [] => simp [litFails] at h
          | c3 :: t3 =>
            simp only [litFails, Bool.or_eq_true, decide_eq_true_eq] at h
            rcases h with h | h
            · exact matchGhp_ne3 c1 c2 c3 (t3 ++ v) h
            · match t3 with
              | [] => simp [litFails] at h
              | c4 :: t4 =>
                simp only [litFails, Bool.or_eq_true, decide_eq_true_eq] at h
                rcases h with h | h
                · exact matchGhp_ne4 c1 c2 c3 c4 (t4 ++ v) h
                · simp [litFails] at h

theorem matchSk_of_litFails : ∀ (s v : List Char),
    litFails ['s', 'k', '-'] s = true → matchSk (s ++ v) = none := by
  intro s v h
  match s with
  | [] => simp [litFails] at h
  | c1 :: t1 =>
    simp only [litFails, Bool.or_eq_true, decide_eq_true_eq] at h
    rcases h with h | h
    · exact matchSk_eq_none_head c1 (t1 ++ v) h
    · match t1 with
      | [] => simp [litFails] at h
      | c2 :: t2 =>
        simp only [litFails, Bool.or_eq_true, decide_eq_true_eq] at h
        rcases h with h | h
        · exact matchSk_ne2 c1 c2 (t2 ++ v) h
        · match t2 with
          | [] => simp [litFails] at h
          | c3 :: t3 =>
            simp only [litFails, Bool.or_eq_true, decide_eq_true_eq] at h
            rcases h with h | h
            · exact matchSk_ne3 c1 c2 c3 (t3 ++ v) h
            · simp [litFails] at h

theorem matchBearer_of_litFails : ∀ (s v : List Char),
    litFails ['B', 'e', 'a', 'r', 'e', 'r'] s = true → matchBearer (s ++ v) = none := by
  intro s v h
  match s with
  | [] => simp [litFails] at h
  | c1 :: t1 =>
    simp only [litFails, Bool.or_eq_true, decide_eq_true_eq] at h
    rcases h with h | h
    · exact matchBearer_eq_none_head c1 (t1 ++ v) h
    · match t1 with
      | [] => simp [litFails] at h
      | c2 :: t2 =>
        simp only [litFails, Bool.or_eq_true, decide_eq_true_eq] at h
        rcases h with h | h
        · exact matchBearer_ne2 c1 c2 (t2 ++ v) h
        · match t2 with
          | [] => simp [litFails] at h
          | c3 :: t3 =>
            simp only [litFails, Bool.or_eq_true, decide_eq_true_eq] at h
            rcases h with h | h
            · exact matchBearer_ne3 c1 c2 c3 (t3 ++ v) h
            · match t3 with
              | [] => simp [litFails] at h
              | c4 :: t4 =>
                simp only [litFails, Bool.or_eq_true, decide_eq_true_eq] at h
                rcases h with h | h
                · exact matchBearer_ne4 c1 c2 c3 c4 (t4 ++ v) h
                · match t4 with
                  | [] => simp [litFails] at h
                  | c5 :: t5 =>
                    simp only [litFails, Bool.or_eq_true, decide_eq_true_eq] at h
                    rcases h with h | h
                    · exact matchBearer_ne5 c1 c2 c3 c4 c5 (t5 ++ v) h
                    · match t5 with
                      | [] => simp [litFails] at h
                      | c6 :: t6 =>
                        simp only [litFails, Bool.or_eq_true, decide_eq_true_eq] at h
                        rcases h with h | h
                        · exact matchBearer_ne6 c1 c2 c3 c4 c5 c6 (t6 ++ v) h
                        · simp [litFails] at h

theorem litFree_drop (lit : List Char) (pat : List Char → Option Nat)
    (hs : ∀ s v, litFails lit s = true → pat (s ++ v) = none) :
    ∀ (a : List Char), litFree lit a = true →
      ∀ j, j < a.length → ∀ v, pat (a.drop j ++ v) = none := by
  intro a
  induction a with
  | nil => intro _ j hj; simp at hj
  | cons c t ih =>
    intro hf j hj v
    have hf2 : litFails lit (c :: t) = true ∧ litFree lit t = true := by
      simpa [litFree, Bool.and_eq_true] using hf
    cases j with
    | zero => simpa using hs (c :: t) v hf2.1
    | succ j2 =>
      rw [List.drop_succ_cons]
      refine ih hf2.2 j2 ?_ v
      simp only [List.length_cons] at hj
      omega

theorem scanMatch_false_drop (pat : List Char → Option Nat) :
    ∀ (l : List Char), scanMatch pat l = false → ∀ i, pat (l.drop i) = none := by
  intro l
  induction l with
  | nil =>
    intro h i
    rw [List.drop_nil]
    have h2 : (pat []).isSome = false := h
    exact Option.not_isSome_iff_eq_none.mp (by simp [h2])
  | cons c t ih =>
    intro h i
    have h2 : ((pat (c :: t)).isSome || scanMatch pat t) = false := h
    simp only [Bool.or_eq_false_iff] at h2
    cases i with
    | zero =>
      rw [List.drop_zero]
      exact Option.not_isSome_iff_eq_none.mp (by simp [h2.1])
    | succ i2 =>
      rw [List.drop_succ_cons]
      exact ih h2.2 i2

theorem scanMatch_append_intro (pat : List Char → Option Nat) :
    ∀ (a b : List Char),
      (∀ j, j < a.length → pat (a.drop j ++ b) = none) →
      scanMatch pat b = false → scanMatch pat (a ++ b) = false := by
  intro a
  induction a with
  | nil => intro b _ hb; simpa using hb
  | cons c t ih =>
    intro b h hb
    have h0 : pat (c :: (t ++ b)) = none := by
      have := h 0 (by simp)
      simpa using this
    show ((pat (c :: (t ++ b))).isSome || scanMatch pat (t ++ b)) = false
    rw [h0]
    simp only [Option.isSome_none, Bool.false_or]
    refine ih b (fun j hj => ?_) hb
    have := h (j + 1) (by simp only [List.length_cons]; omega)
    simpa using this

theorem matchGhp_tok : ∀ (u : List Char) (n : Nat), matchGhp u = some n →
    ∀ c ∈ u.take n, isTok c = true := by
  intro u n h
  match u with
  | [] => exact absurd h (by simp [matchGhp])
  | [_] => exact absurd h (by simp [matchGhp])
  | [_, _] => exact absurd h (by simp [matchGhp])
  | [_, _, _] => exact absurd h (by simp [matchGhp])
  | c1 :: c2 :: c3 :: c4 :: rest =>
    rw [show matchGhp (c1 :: c2 :: c3 :: c4 :: rest) =
      (if c1 = 'g' ∧ c2 = 'h' ∧ c3 = 'p' ∧ c4 = '_' ∧ 36 ≤ runLen isAlnumCh rest
       then some 40 else none) from rfl] at h
    by_cases hc : c1 = 'g' ∧ c2 = 'h' ∧ c3 = 'p' ∧ c4 = '_' ∧ 36 ≤ runLen isAlnumCh rest
    · rw [if_pos hc, Option.some.injEq] at h
      obtain ⟨rfl, rfl, rfl, rfl, h36⟩ := hc
      subst h
      intro c hcmem
      rw [show List.take 40 ('g' :: 'h' :: 'p' :: '_' :: rest) =
        'g' :: 'h' :: 'p' :: '_' :: List.take 36 rest from rfl] at hcmem
      simp only [List.mem_cons] at hcmem
      rcases hcmem with rfl | rfl | rfl | rfl | hmem
      · decide
      · decide
      · decide
      · decide
      · exact isTok_of_alnum c (runLen_take_mem isAlnumCh rest 36 h36 c hmem)
    · rw [if_neg hc] at h
      exact absurd h (by simp)

theorem matchGhp_det : ∀ (u : List Char) (n : Nat), matchGhp u = some n →
    ∀ w, matchGhp (u.take n ++ w) ≠ none := by
  intro u n h w
  match u with
  | [] => exact absurd h (by simp [matchGhp])
  | [_] => exact absurd h (by simp [matchGhp])
  | [_, _] => exact absurd h (by simp [matchGhp])
  | [_, _, _] => exact absurd h (by simp [matchGhp])
  | c1 :: c2 :: c3 :: c4 :: rest =>
    rw [show matchGhp (c1 :: c2 :: c3 :: c4 :: rest) =
      (if c1 = 'g' ∧ c2 = 'h' ∧ c3 = 'p' ∧ c4 = '_' ∧ 36 ≤ runLen isAlnumCh rest
       then some 40 else none) from rfl] at h
    by_cases hc : c1 = 'g' ∧ c2 = 'h' ∧ c3 = 'p' ∧ c4 = '_' ∧ 36 ≤ runLen isAlnumCh rest
    · rw [if_pos hc, Option.some.injEq] at h
      obtain ⟨rfl, rfl, rfl, rfl, h36⟩ := hc
      subst h
      have hall : ∀ c ∈ rest.take 36, isAlnumCh c = true :=
        runLen_take_mem isAlnumCh rest 36 h36
      have hlen : (rest.take 36).length = 36 := by
        rw [List.length_take]
        have h1 : 36 ≤ rest.length := le_trans h36 (runLen_le_length isAlnumCh rest)
        omega
      have hres : 36 ≤ runLen isAlnumCh (rest.take 36 ++ w) := by
        rw [runLen_append_all isAlnumCh (rest.take 36) w hall, hlen]
        omega
      rw [show List.take 40 ('g' :: 'h' :: 'p' :: '_' :: rest) ++ w =
        'g' :: 'h' :: 'p' :: '_' :: (List.take 36 rest ++ w) from rfl]
      rw [show matchGhp ('g' :: 'h' :: 'p' :: '_' :: (List.take 36 rest ++ w)) =
        (if 'g' = 'g' ∧ 'h' = 'h' ∧ 'p' = 'p' ∧ '_' = '_' ∧
            36 ≤ runLen isAlnumCh (List.take 36 rest ++ w)
         then some 40 else none) from rfl]
      rw [if_pos ⟨rfl, rfl, rfl, rfl, hres⟩]
      simp
    · rw [if_neg hc] at h
      exact absurd h (by simp)

theorem matchSk_tok : ∀ (u : List Char) (n : Nat), matchSk u = some n →
    ∀ c ∈ u.take n, isTok c = true := by
  intro u n h
  match u with
  | [] => exact absurd h (by simp [matchSk])
  | [_] => exact absurd h (by simp [matchSk])
  | [_, _] => exact absurd h (by simp [matchSk])
  | c1 :: c2 :: c3 :: rest =>
    rw [show matchSk (c1 :: c2 :: c3 :: rest) =
      (if c1 = 's' ∧ c2 = 'k' ∧ c3 = '-' ∧ 20 ≤ runLen isAlnumCh rest
       then some (3 + runLen isAlnumCh rest) else none) from rfl] at h
    by_cases hc : c1 = 's' ∧ c2 = 'k' ∧ c3 = '-' ∧ 20 ≤ runLen isAlnumCh rest
    · rw [if_pos hc, Option.some.injEq] at h
      obtain ⟨rfl, rfl, rfl, h20⟩ := hc
      subst h
      intro c hcmem
      rw [Nat.add_comm 3 (runLen isAlnumCh rest)] at hcmem
      rw [show List.take (runLen isAlnumCh rest + 3) ('s' :: 'k' :: '-' :: rest) =
        's' :: 'k' :: '-' :: List.take (runLen isAlnumCh rest) rest from by
          rw [List.take_succ_cons, List.take_succ_cons, List.take_succ_cons]] at hcmem
      simp only [List.mem_cons] at hcmem
      rcases hcmem with rfl | rfl | rfl | hmem
      · decide
      · decide
      · decide
      · exact isTok_of_alnum c
          (runLen_take_mem isAlnumCh rest (runLen isAlnumCh rest) (le_refl _) c hmem)
    · rw [if_neg hc] at h
      exact absurd h (by simp)

theorem matchSk_det : ∀ (u : List Char) (n : Nat), matchSk u = some n →
    ∀ w, matchSk (u.take n ++ w) ≠ none := by
  intro u n h w
  match u with
  | [] => exact absurd h (by simp [matchSk])
  | [_] => exact absurd h (by simp [matchSk])
  | [_, _] => exact absurd h (by simp [matchSk])
  | c1 :: c2 :: c3 :: rest =>
    rw [show matchSk (c1 :: c2 :: c3 :: rest) =
      (if c1 = 's' ∧ c2 = 'k' ∧ c3 = '-' ∧ 20 ≤ runLen isAlnumCh rest
       then some (3 + runLen isAlnumCh rest) else none) from rfl] at h
    by_cases hc : c1 = 's' ∧ c2 = 'k' ∧ c3 = '-' ∧ 20 ≤ runLen isAlnumCh rest
    · rw [if_pos hc, Option.some.injEq] at h
      obtain ⟨rfl, rfl, rfl, h20⟩ := hc
      subst h
      have hall : ∀ c ∈ rest.take (runLen isAlnumCh rest), isAlnumCh c = true :=
        runLen_take_mem isAlnumCh rest (runLen isAlnumCh rest) (le_refl _)
      have hlen : (rest.take (runLen isAlnumCh rest)).length = runLen isAlnumCh rest := by
        rw [List.length_take]
        have := runLen_le_length isAlnumCh rest
        omega
      have hres : 20 ≤ runLen isAlnumCh (rest.take (runLen isAlnumCh rest) ++ w) := by
        rw [runLen_append_all isAlnumCh (rest.take (runLen isAlnumCh rest)) w hall, hlen]
        omega
      rw [Nat.add_comm 3 (runLen isAlnumCh rest)]
      rw [show List.take (runLen isAlnumCh rest + 3) ('s' :: 'k' :: '-' :: rest) ++ w =
        's' :: 'k' :: '-' :: (List.take (runLen isAlnumCh rest) rest ++ w) from by
          rw [List.take_succ_cons, List.take_succ_cons, List.take_succ_cons]
          rfl]
      rw [show matchSk ('s' :: 'k' :: '-' :: (List.take (runLen isAlnumCh rest) rest ++ w)) =
        (if 's' = 's' ∧ 'k' = 'k' ∧ '-' = '-' ∧
            20 ≤ runLen isAlnumCh (List.take (runLen isAlnumCh rest) rest ++ w)
         then some (3 + runLen isAlnumCh (List.take (runLen isAlnumCh rest) rest ++ w))
         else none) from rfl]
      rw [if_pos ⟨rfl, rfl, rfl, hres⟩]
      simp
    · rw [if_neg hc] at h
      exact absurd h (by simp)

theorem matchBearer_tok : ∀ (u : List Char) (n : Nat), matchBearer u = some n →
    ∀ c ∈ u.take n, isTok c = true := by
  intro u n h
  match u with
  | [] => exact absurd h (by simp [matchBearer])
  | [_] => exact absurd h (by simp [matchBearer])
  | [_, _] => exact absurd h (by simp [matchBearer])
  | [_, _, _] => exact absurd h (by simp [matchBearer])
  | [_, _, _, _] => exact absurd h (by simp [matchBearer])
  | [_, _, _, _, _] => exact absurd h (by simp [matchBearer])
  | c1 :: c2 :: c3 :: c4 :: c5 :: c6 :: rest =>
    rw [show matchBearer (c1 :: c2 :: c3 :: c4 :: c5 :: c6 :: rest) =
      (if c1 = 'B' ∧ c2 = 'e' ∧ c3 = 'a' ∧ c4 = 'r' ∧ c5 = 'e' ∧ c6 = 'r' then
         if 1 ≤ runLen isSpaceCh rest ∧
            20 ≤ runLen isWordDashCh (rest.drop (runLen isSpaceCh rest))
         then some (6 + runLen isSpaceCh rest +
                    runLen isWordDashCh (rest.drop (runLen isSpaceCh rest)))
         else none
       else none) from rfl] at h
    by_cases hc : c1 = 'B' ∧ c2 = 'e' ∧ c3 = 'a' ∧ c4 = 'r' ∧ c5 = 'e' ∧ c6 = 'r'
    · rw [if_pos hc] at h
      by_cases hd : 1 ≤ runLen isSpaceCh rest ∧
          20 ≤ runLen isWordDashCh (rest.drop (runLen isSpaceCh rest))
      · rw [if_pos hd, Option.some.injEq] at h
        obtain ⟨rfl, rfl, rfl, rfl, rfl, rfl⟩ := hc
        subst h
        intro c hcmem
        rw [show 6 + runLen isSpaceCh rest +
              runLen isWordDashCh (rest.drop (runLen isSpaceCh rest)) =
            (runLen isSpaceCh rest +
              runLen isWordDashCh (rest.drop (runLen isSpaceCh rest))) + 6 from by omega] at hcmem
        rw [show List.take
            ((runLen isSpaceCh rest +
              runLen isWordDashCh (rest.drop (runLen isSpaceCh rest))) + 6)
            ('B' :: 'e' :: 'a' :: 'r' :: 'e' :: 'r' :: rest) =
          'B' :: 'e' :: 'a' :: 'r' :: 'e' :: 'r' ::
            List.take (runLen isSpaceCh rest +
              runLen isWordDashCh (rest.drop (runLen isSpaceCh rest))) rest from by
            rw [List.take_succ_cons, List.take_succ_cons, List.take_succ_cons,
                List.take_succ_cons, List.take_succ_cons, List.take_succ_cons]] at hcmem
        rw [List.take_add] at hcmem
        simp only [List.mem_cons, List.mem_append] at hcmem
        rcases hcmem with rfl | rfl | rfl | rfl | rfl | rfl | hmem | hmem
        · decide
        · decide
        · decide
        · decide
        · decide
        · decide
        · have hsp := runLen_take_mem isSpaceCh rest (runLen isSpaceCh rest) (le_refl _) c hmem
          simp [isTok, hsp]
        · have hwd := runLen_take_mem isWordDashCh (rest.drop (runLen isSpaceCh rest))
            (runLen isWordDashCh (rest.drop (runLen isSpaceCh rest))) (le_refl _) c hmem
          simp [isTok, hwd]
      · rw [if_neg hd] at h
        exact absurd h (by simp)
    · rw [if_neg hc] at h
      exact absurd h (by simp)

theorem matchBearer_det : ∀ (u : List Char) (n : Nat), matchBearer u = some n →
    ∀ v, matchBearer (u.take n ++ v) ≠ none := by
  intro u n h v
  match u with
  | [] => exact absurd h (by simp [matchBearer])
  | [_] => exact absurd h (by simp [matchBearer])
  | [_, _] => exact absurd h (by simp [matchBearer])
  | [_, _, _] => exact absurd h (by simp [matchBearer])
  | [_, _, _, _] => exact absurd h (by simp [matchBearer])
  | [_, _, _, _, _] => exact absurd h (by simp [matchBearer])
  | c1 :: c2 :: c3 :: c4 :: c5 :: c6 :: rest =>
    rw [show matchBearer (c1 :: c2 :: c3 :: c4 :: c5 :: c6 :: rest) =
      (if c1 = 'B' ∧ c2 = 'e' ∧ c3 = 'a' ∧ c4 = 'r' ∧ c5 = 'e' ∧ c6 = 'r' then
         if 1 ≤ runLen isSpaceCh rest ∧
            20 ≤ runLen isWordDashCh (rest.drop (runLen isSpaceCh rest))
         then some (6 + runLen isSpaceCh rest +
                    runLen isWordDashCh (rest.drop (runLen isSpaceCh rest)))
         else none
       else none) from rfl] at h
    by_cases hc : c1 = 'B' ∧ c2 = 'e' ∧ c3 = 'a' ∧ c4 = 'r' ∧ c5 = 'e' ∧ c6 = 'r'
    · rw [if_pos hc] at h
      by_cases hd : 1 ≤ runLen isSpaceCh rest ∧
          20 ≤ runLen isWordDashCh (rest.drop (runLen isSpaceCh rest))
      · rw [if_pos hd, Option.some.injEq] at h
        obtain ⟨rfl, rfl, rfl, rfl, rfl, rfl⟩ := hc
        subst h
        have hS : ∀ c ∈ rest.take (runLen isSpaceCh rest), isSpaceCh c = true :=
          runLen_take_mem isSpaceCh rest (runLen isSpaceCh rest) (le_refl _)
        have hSlen : (rest.take (runLen isSpaceCh rest)).length = runLen isSpaceCh rest := by
          rw [List.length_take]
          have := runLen_le_length isSpaceCh rest
          omega
        have hW : ∀ c ∈ (rest.drop (runLen isSpaceCh rest)).take
            (runLen isWordDashCh (rest.drop (runLen isSpaceCh rest))), isWordDashCh c = true :=
          runLen_take_mem isWordDashCh (rest.drop (runLen isSpaceCh rest))
            (runLen isWordDashCh (rest.drop (runLen isSpaceCh rest))) (le_refl _)
        have hWlen : ((rest.drop (runLen isSpaceCh rest)).take
            (runLen isWordDashCh (rest.drop (runLen isSpaceCh rest)))).length =
            runLen isWordDashCh (rest.drop (runLen isSpaceCh rest)) := by
          rw [List.length_take]
          have := runLen_le_length isWordDashCh (rest.drop (runLen isSpaceCh rest))
          omega
        rw [show 6 + runLen isSpaceCh rest +
              runLen isWordDashCh (rest.drop (runLen isSpaceCh rest)) =
            (runLen isSpaceCh rest +
              runLen isWordDashCh (rest.drop (runLen isSpaceCh rest))) + 6 from by omega]
        rw [show List.take
            ((runLen isSpaceCh rest +
              runLen isWordDashCh (rest.drop (runLen isSpaceCh rest))) + 6)
            ('B' :: 'e' :: 'a' :: 'r' :: 'e' :: 'r' :: rest) ++ v =
          'B' :: 'e' :: 'a' :: 'r' :: 'e' :: 'r' ::
            (List.take (runLen isSpaceCh rest +
              runLen isWordDashCh (rest.drop (runLen isSpaceCh rest))) rest ++ v) from by
            rw [List.take_succ_cons, List.take_succ_cons, List.take_succ_cons,
                List.take_succ_cons, List.take_succ_cons, List.take_succ_cons]
            rfl]
        rw [List.take_add, List.append_assoc]
        cases hWnil : (rest.drop (runLen isSpaceCh rest)).take
            (runLen isWordDashCh (rest.drop (runLen isSpaceCh rest))) with
        | nil =>
          exfalso
          rw [hWnil] at hWlen
          simp only [List.length_nil] at hWlen
          omega
        | cons hw Wt =>
          have hwmem : hw ∈ (rest.drop (runLen isSpaceCh rest)).take
              (runLen isWordDashCh (rest.drop (runLen isSpaceCh rest))) := by
            rw [hWnil]; simp
          have hwsp : isSpaceCh hw = false := isSpaceCh_of_wordDash hw (hW hw hwmem)
          have hruns : runLen isSpaceCh
              (rest.take (runLen isSpaceCh rest) ++ (hw :: Wt ++ v)) =
              runLen isSpaceCh rest := by
            rw [runLen_append_all isSpaceCh _ _ hS, hSlen]
            rw [show (hw :: Wt ++ v : List Char) = hw :: (Wt ++ v) from rfl]
            rw [runLen_head_false isSpaceCh hw (Wt ++ v) hwsp]
            omega
          have hdropped : (rest.take (runLen isSpaceCh rest) ++ (hw :: Wt ++ v)).drop
              (runLen isSpaceCh rest) = hw :: Wt ++ v := by
            have hdl := List.drop_left (rest.take (runLen isSpaceCh rest)) (hw :: Wt ++ v)
            rwa [hSlen] at hdl
          have hrunw : runLen isWordDashCh (hw :: Wt ++ v) =
              runLen isWordDashCh (rest.drop (runLen isSpaceCh rest)) +
                runLen isWordDashCh v := by
            rw [show (hw :: Wt ++ v : List Char) = (hw :: Wt) ++ v from rfl]
            rw [runLen_append_all isWordDashCh (hw :: Wt) v (by rw [← hWnil]; exact hW)]
            rw [show (hw :: Wt : List Char).length =
              ((rest.drop (runLen isSpaceCh rest)).take
                (runLen isWordDashCh (rest.drop (runLen isSpaceCh rest)))).length from by
                rw [hWnil]]
            rw [hWlen]
          rw [show matchBearer ('B' :: 'e' :: 'a' :: 'r' :: 'e' :: 'r' ::
              (rest.take (runLen isSpaceCh rest) ++ (hw :: Wt ++ v))) =
            (if 'B' = 'B' ∧ 'e' = 'e' ∧ 'a' = 'a' ∧ 'r' = 'r' ∧ 'e' = 'e' ∧ 'r' = 'r' then
               if 1 ≤ runLen isSpaceCh (rest.take (runLen isSpaceCh rest) ++ (hw :: Wt ++ v)) ∧
                  20 ≤ runLen isWordDashCh
                    ((rest.take (runLen isSpaceCh rest) ++ (hw :: Wt ++ v)).drop
                      (runLen isSpaceCh (rest.take (runLen isSpaceCh rest) ++ (hw :: Wt ++ v))))
               then some (6 + runLen isSpaceCh (rest.take (runLen isSpaceCh rest) ++ (hw :: Wt ++ v)) +
                          runLen isWordDashCh
                    ((rest.take (runLen isSpaceCh rest) ++ (hw :: Wt ++ v)).drop
                      (runLen isSpaceCh (rest.take (runLen isSpaceCh rest) ++ (hw :: Wt ++ v)))))
               else none
             else none) from rfl]
          rw [hruns, hdropped, hrunw]
          rw [if_pos ⟨rfl, rfl, rfl, rfl, rfl, rfl⟩]
          rw [if_pos ⟨hd.1, by omega⟩]
          simp
      · rw [if_neg hd] at h
        exact absurd h (by simp)
    · rw [if_neg hc] at h
      exact absurd h (by simp)

theorem seal_left (pat : List Char → Option Nat)
    (htok : ∀ u n, pat u = some n → ∀ c ∈ u.take n, isTok c = true)
    (hdet : ∀ u n, pat u = some n → ∀ w, pat (u.take n ++ w) ≠ none)
    (a u0 b : List Char) (h0 : pat (a ++ u0) = none)
    (hb : b ≠ []) (hbh : isTok (b.headD '"') = false) :
    pat (a ++ b) = none := by
  cases hn : pat (a ++ b) with
  | none => rfl
  | some n =>
    exfalso
    by_cases hna : n ≤ a.length
    · have hde := hdet (a ++ b) n hn (a.drop n ++ u0)
      rw [List.take_append_of_le_length hna] at hde
      rw [show a.take n ++ (a.drop n ++ u0) = (a.take n ++ a.drop n) ++ u0 from
        (List.append_assoc (a.take n) (a.drop n) u0).symm] at hde
      rw [List.take_append_drop] at hde
      exact hde h0
    · push_neg at hna
      have hmem : b.headD '"' ∈ (a ++ b).take n := by
        rw [List.take_append_eq_append_take, List.take_of_length_le (le_of_lt hna)]
        cases b with
        | nil => exact absurd rfl hb
        | cons hh tt =>
          have hpos : n - a.length ≠ 0 := by omega
          obtain ⟨k, hk⟩ := Nat.exists_eq_succ_of_ne_zero hpos
          rw [hk, List.take_succ_cons]
          simp
      have htk := htok (a ++ b) n hn (b.headD '"') hmem
      rw [hbh] at htk
      exact Bool.false_ne_true htk

theorem scanMatch_seal (pat : List Char → Option Nat)
    (htok : ∀ u n, pat u = some n → ∀ c ∈ u.take n, isTok c = true)
    (hdet : ∀ u n, pat u = some n → ∀ w, pat (u.take n ++ w) ≠ none)
    (x b : List Char) (hx : scanMatch pat x = false) (hb2 : scanMatch pat b = false)
    (hbne : b ≠ []) (hbh : isTok (b.headD '"') = false) :
    scanMatch pat (x ++ b) = false := by
  refine scanMatch_append_intro pat x b (fun j hj => ?_) hb2
  refine seal_left pat htok hdet (x.drop j) [] b ?_ hbne hbh
  rw [List.append_nil]
  exact scanMatch_false_drop pat x hx j

theorem scanGo_free (patA patB : List Char → Option Nat) (ρ : List Char)
    (hnil : patA [] = none)
    (htok : ∀ u n, patA u = some n → ∀ c ∈ u.take n, isTok c = true)
    (hdet : ∀ u n, patA u = some n → ∀ w, patA (u.take n ++ w) ≠ none)
    (hρ : ∀ j, j < ρ.length → ∀ v, patA (List.drop j ρ ++ v) = none)
    (hρne : ρ ≠ []) (hρh : isTok (ρ.headD '"') = false) :
    ∀ (fuel : Nat) (s pre : List Char), s.length ≤ fuel →
      (∀ j, j < pre.length → patA (pre.drop j ++ s) = none) →
      (∀ i, patB (s.drop i) = none → patA (s.drop i) = none) →
      scanMatch patA (pre ++ replaceAllGo patB ρ fuel s) = false := by
  intro fuel
  induction fuel with
  | zero =>
    intro s pre hf hpre _
    have hs : s = [] := List.eq_nil_of_length_eq_zero (Nat.le_zero.mp hf)
    subst hs
    rw [show replaceAllGo patB ρ 0 [] = [] from rfl]
    refine scanMatch_append_intro patA pre [] (fun j hj => hpre j hj) ?_
    show (patA []).isSome = false
    rw [hnil]
    rfl
  | succ f ih =>
    intro s pre hf hpre hgap
    cases s with
    | nil =>
      rw [show replaceAllGo patB ρ (f + 1) [] = [] from rfl]
      refine scanMatch_append_intro patA pre [] (fun j hj => hpre j hj) ?_
      show (patA []).isSome = false
      rw [hnil]
      rfl
    | cons c t =>
      cases hp : patB (c :: t) with
      | none =>
        rw [show replaceAllGo patB ρ (f + 1) (c :: t) =
          c :: replaceAllGo patB ρ f t from by simp only [replaceAllGo, hp]]
        rw [show pre ++ c :: replaceAllGo patB ρ f t =
          (pre ++ [c]) ++ replaceAllGo patB ρ f t from by simp]
        refine ih t (pre ++ [c]) ?_ ?_ ?_
        · simp only [List.length_cons] at hf
          omega
        · intro j hj
          simp only [List.length_append, List.length_cons, List.length_nil] at hj
          rcases Nat.lt_or_ge j pre.length with hlt | hge
          · rw [List.drop_append_of_le_length (le_of_lt hlt), List.append_assoc]
            exact hpre j hlt
          · have hj2 : j = pre.length := by omega
            subst hj2
            rw [List.drop_append_of_le_length (le_refl _), List.drop_length]
            exact hgap 0 hp
        · intro i h
          exact hgap (i + 1) h
      | some n =>
        rw [show replaceAllGo patB ρ (f + 1) (c :: t) =
          ρ ++ replaceAllGo patB ρ f ((c :: t).drop (max 1 n)) from by
            simp only [replaceAllGo, hp]]
        rw [show pre ++ (ρ ++ replaceAllGo patB ρ f ((c :: t).drop (max 1 n))) =
          (pre ++ ρ) ++ replaceAllGo patB ρ f ((c :: t).drop (max 1 n)) from
          (List.append_assoc pre ρ _).symm]
        refine ih ((c :: t).drop (max 1 n)) (pre ++ ρ) ?_ ?_ ?_
        · rw [List.length_drop]
          simp only [List.length_cons]
          simp only [List.length_cons] at hf
          omega
        · intro j hj
          simp only [List.length_append] at hj
          rcases Nat.lt_or_ge j pre.length with hlt | hge
          · rw [List.drop_append_of_le_length (le_of_lt hlt), List.append_assoc]
            refine seal_left patA htok hdet (pre.drop j) (c :: t)
              (ρ ++ (c :: t).drop (max 1 n)) (hpre j hlt) ?_ ?_
            · cases ρ with
              | nil => exact absurd rfl hρne
              | cons r rt => simp
            · cases ρ with
              | nil => exact absurd rfl hρne
              | cons r rt => exact hρh
          · have hj2 : j - pre.length < ρ.length := by omega
            rw [List.drop_append_eq_append_drop,
                List.drop_eq_nil_of_le hge, List.nil_append]
            exact hρ (j - pre.length) hj2 _
        · intro i h
          rw [List.drop_drop]
          rw [List.drop_drop] at h
          exact hgap (max 1 n + i) h

theorem replaceAll_scan_self (patA : List Char → Option Nat) (ρ : List Char)
    (hnil : patA [] = none)
    (htok : ∀ u n, patA u = some n → ∀ c ∈ u.take n, isTok c = true)
    (hdet : ∀ u n, patA u = some n → ∀ w, patA (u.take n ++ w) ≠ none)
    (hρ : ∀ j, j < ρ.length → ∀ v, patA (List.drop j ρ ++ v) = none)
    (hρne : ρ ≠ []) (hρh : isTok (ρ.headD '"') = false) (s : List Char) :
    scanMatch patA (replaceAll patA ρ s) = false := by
  have h := scanGo_free patA patA ρ hnil htok hdet hρ hρne hρh s.length s []
    (le_refl _) (fun j hj => absurd hj (by simp)) (fun i h => h)
  simpa [replaceAll] using h

theorem replaceAll_scan_pres (patA patB : List Char → Option Nat) (ρ : List Char)
    (hnil : patA [] = none)
    (htok : ∀ u n, patA u = some n → ∀ c ∈ u.take n, isTok c = true)
    (hdet : ∀ u n, patA u = some n → ∀ w, patA (u.take n ++ w) ≠ none)
    (hρ : ∀ j, j < ρ.length → ∀ v, patA (List.drop j ρ ++ v) = none)
    (hρne : ρ ≠ []) (hρh : isTok (ρ.headD '"') = false) (s : List Char)
    (hfree : scanMatch patA s = false) :
    scanMatch patA (replaceAll patB ρ s) = false := by
  have h := scanGo_free patA patB ρ hnil htok hdet hρ hρne hρh s.length s []
    (le_refl _) (fun j hj => absurd hj (by simp))
    (fun i _ => scanMatch_false_drop patA s hfree i)
  simpa [replaceAll] using h

/-- The three redaction passes of `sanitize`, in source order. -/
def redactChain (m : List Char) : List Char :=
  replaceAll matchBearer "[BEARER_TOKEN]".data
    (replaceAll matchSk "[OPENAI_KEY]".data
      (replaceAll matchGhp "[GITHUB_TOKEN]".data m))

/-- The three JSON-escape passes of `sanitize`, in source order. -/
def escapeChain (m : List Char) : List Char :=
  replaceAll (matchChar '"') ['\\', '"']
    (replaceAll (matchChar '\r') ['\\', 'r']
      (replaceAll (matchChar '\n') ['\\', 'n'] m))

theorem sanitize_ghp_free (m : List Char) :
    scanMatch matchGhp (escapeChain (redactChain m)) = false := by
  have l1 : scanMatch matchGhp (replaceAll matchGhp "[GITHUB_TOKEN]".data m) = false :=
    replaceAll_scan_self matchGhp _ rfl matchGhp_tok matchGhp_det
      (litFree_drop _ _ matchGhp_of_litFails _ (by decide)) (by decide) (by decide) m
  have l2 := replaceAll_scan_pres matchGhp matchSk "[OPENAI_KEY]".data rfl
    matchGhp_tok matchGhp_det
    (litFree_drop _ _ matchGhp_of_litFails _ (by decide)) (by decide) (by decide) _ l1
  have l3 := replaceAll_scan_pres matchGhp matchBearer "[BEARER_TOKEN]".data rfl
    matchGhp_tok matchGhp_det
    (litFree_drop _ _ matchGhp_of_litFails _ (by decide)) (by decide) (by decide) _ l2
  have l4 := replaceAll_scan_pres matchGhp (matchChar '\n') ['\\', 'n'] rfl
    matchGhp_tok matchGhp_det
    (litFree_drop _ _ matchGhp_of_litFails _ (by decide)) (by decide) (by decide) _ l3
  have l5 := replaceAll_scan_pres matchGhp (matchChar '\r') ['\\', 'r'] rfl
    matchGhp_tok matchGhp_det
    (litFree_drop _ _ matchGhp_of_litFails _ (by decide)) (by decide) (by decide) _ l4
  have l6 := replaceAll_scan_pres matchGhp (matchChar '"') ['\\', '"'] rfl
    matchGhp_tok matchGhp_det
    (litFree_drop _ _ matchGhp_of_litFails _ (by decide)) (by decide) (by decide) _ l5
  simpa only [escapeChain, redactChain] using l6

theorem sanitize_sk_free (m : List Char) :
    scanMatch matchSk (escapeChain (redactChain m)) = false := by
  have l2 : scanMatch matchSk (replaceAll matchSk "[OPENAI_KEY]".data
      (replaceAll matchGhp "[GITHUB_TOKEN]".data m)) = false :=
    replaceAll_scan_self matchSk _ rfl matchSk_tok matchSk_det
      (litFree_drop _ _ matchSk_of_litFails _ (by decide)) (by decide) (by decide) _
  have l3 := replaceAll_scan_pres matchSk matchBearer "[BEARER_TOKEN]".data rfl
    matchSk_tok matchSk_det
    (litFree_drop _ _ matchSk_of_litFails _ (by decide)) (by decide) (by decide) _ l2
  have l4 := replaceAll_scan_pres matchSk (matchChar '\n') ['\\', 'n'] rfl
    matchSk_tok matchSk_det
    (litFree_drop _ _ matchSk_of_litFails _ (by decide)) (by decide) (by decide) _ l3
  have l5 := replaceAll_scan_pres matchSk (matchChar '\r') ['\\', 'r'] rfl
    matchSk_tok matchSk_det
    (litFree_drop _ _ matchSk_of_litFails _ (by decide)) (by decide) (by decide) _ l4
  have l6 := replaceAll_scan_pres matchSk (matchChar '"') ['\\', '"'] rfl
    matchSk_tok matchSk_det
    (litFree_drop _ _ matchSk_of_litFails _ (by decide)) (by decide) (by decide) _ l5
  simpa only [escapeChain, redactChain] using l6

theorem sanitize_bearer_free (m : List Char) :
    scanMatch matchBearer (escapeChain (redactChain m)) = false := by
  have l3 : scanMatch matchBearer (redactChain m) = false := by
    rw [redactChain]
    exact replaceAll_scan_self matchBearer _ rfl matchBearer_tok matchBearer_det
      (litFree_drop _ _ matchBearer_of_litFails _ (by decide)) (by decide) (by decide) _
  have l4 := replaceAll_scan_pres matchBearer (matchChar '\n') ['\\', 'n'] rfl
    matchBearer_tok matchBearer_det
    (litFree_drop _ _ matchBearer_of_litFails _ (by decide)) (by decide) (by decide) _ l3
  have l5 := replaceAll_scan_pres matchBearer (matchChar '\r') ['\\', 'r'] rfl
    matchBearer_tok matchBearer_det
    (litFree_drop _ _ matchBearer_of_litFails _ (by decide)) (by decide) (by decide) _ l4
  have l6 := replaceAll_scan_pres matchBearer (matchChar '"') ['\\', '"'] rfl
    matchBearer_tok matchBearer_det
    (litFree_drop _ _ matchBearer_of_litFails _ (by decide)) (by decide) (by decide) _ l5
  simpa only [escapeChain] using l6

theorem sanitize_contains_false (s : String) :
    containsSecretShape (JournalWriter.sanitize s) = false := by
  have hdata : (JournalWriter.sanitize s).data = escapeChain (redactChain s.data) := rfl
  simp only [containsSecretShape, hdata, sanitize_ghp_free, sanitize_sk_free,
    sanitize_bearer_free]
  rfl

/-- The event shape used for the redaction theorems (the engine's usual
fixed fields, with the message varying). -/
def eC7msg (m : String) : Event :=
  { ts := "2026-02-20T00:00:00.000Z", run_id := "run_1", stage := "generate",
    level := "info", event_type := "stage_start", message := m }

theorem strDataAppend (s t : String) : (s ++ t).data = s.data ++ t.data := by
  cases s
  cases t
  rfl

theorem writeLine_eC7 (s : String) : writeLine (eC7msg s) "seed" =
    Event.to_json (eC7msg (JournalWriter.sanitize s)) "seed" ++ "\n" := rfl

theorem commaJoin_nil : commaJoin [] = "" := rfl

theorem sanitize_data (s : String) :
    (JournalWriter.sanitize s).data = escapeChain (redactChain s.data) := rfl

theorem toStringInt0 : toString (0 : Int) = "0" := rfl

theorem line_ghp_free (s : String) :
    scanMatch matchGhp ((writeLine (eC7msg s) "seed").data) = false := by
  rw [writeLine_eC7]
  simp only [Event.to_json, eC7msg, Event.SCHEMA_VERSION, List.map_nil, commaJoin_nil,
    toStringInt0, strDataAppend, sanitize_data, List.append_assoc, List.nil_append,
    show ("" : String).data = [] from rfl, List.append_nil]
  iterate 22
    refine scanMatch_append_intro _ _ _
      (fun j hj => litFree_drop _ _ matchGhp_of_litFails _ (by decide) j hj _) ?_
  exact scanMatch_seal matchGhp matchGhp_tok matchGhp_det _ _
    (sanitize_ghp_free s.data) (by decide) (by decide) (by decide)

theorem line_sk_free (s : String) :
    scanMatch matchSk ((writeLine (eC7msg s) "seed").data) = false := by
  rw [writeLine_eC7]
  simp only [Event.to_json, eC7msg, Event.SCHEMA_VERSION, List.map_nil, commaJoin_nil,
    toStringInt0, strDataAppend, sanitize_data, List.append_assoc, List.nil_append,
    show ("" : String).data = [] from rfl, List.append_nil]
  iterate 22
    refine scanMatch_append_intro _ _ _
      (fun j hj => litFree_drop _ _ matchSk_of_litFails _ (by decide) j hj _) ?_
  exact scanMatch_seal matchSk matchSk_tok matchSk_det _ _
    (sanitize_sk_free s.data) (by decide) (by decide) (by decide)

theorem line_bearer_free (s : String) :
    scanMatch matchBearer ((writeLine (eC7msg s) "seed").data) = false := by
  rw [writeLine_eC7]
  simp only [Event.to_json, eC7msg, Event.SCHEMA_VERSION, List.map_nil, commaJoin_nil,
    toStringInt0, strDataAppend, sanitize_data, List.append_assoc, List.nil_append,
    show ("" : String).data = [] from rfl, List.append_nil]
  iterate 22
    refine scanMatch_append_intro _ _ _
      (fun j hj => litFree_drop _ _ matchBearer_of_litFails _ (by decide) j hj _) ?_
  exact scanMatch_seal matchBearer matchBearer_tok matchBearer_det _ _
    (sanitize_bearer_free s.data) (by decide) (by decide) (by decide)

theorem line_contains_false (s : String) :
    containsSecretShape (writeLine (eC7msg s) "seed") = false := by
  simp only [containsSecretShape, line_ghp_free, line_sk_free, line_bearer_free]
  rfl

/-- `(w.write e).file` appends exactly the serialized line. -/
theorem write_file (w : JournalWriter) (e : Event) :
    (w.write e).file = w.file ++ [writeLine e w.last_hash] := rfl

/-- C7 counterexample: `sanitize` is not idempotent — escaping a double
quote inserts a backslash-quote whose quote a second pass escapes
again. -/
theorem sanitize_not_idempotent :
    JournalWriter.sanitize (JournalWriter.sanitize "\"") ≠ JournalWriter.sanitize "\"" := by
  decide

/-- C7 (amended): `sanitize` is exactly the three redaction passes
followed by the three JSON-escape passes — redaction before escaping —
and for every message whatsoever (in particular every message containing
bearer-token-shaped or API-key-shaped substrings) the sanitized message
contains no secret-shaped substring, `write` stores exactly the
serialization carrying the sanitized message, and the entire stored
journal line for an event carrying the message is free of secret-shaped
substrings; `sanitize` itself, however, is not idempotent (see the
counterexample). -/
theorem sanitize_redacts_every_message (s : String) :
    JournalWriter.sanitize s = String.mk (escapeChain (redactChain s.data)) ∧
    containsSecretShape (JournalWriter.sanitize s) = false ∧
    (∀ (w : JournalWriter) (e : Event),
      (w.write e).file = w.file ++
        [Event.to_json { e with message := JournalWriter.sanitize e.message }
          w.last_hash ++ "\n"]) ∧
    containsSecretShape (writeLine (eC7msg s) "seed") = false :=
  ⟨rfl, sanitize_contains_false s, fun w e => rfl, line_contains_false s⟩

